import Mathlib

/-!
Verification of the booking/scheduling subsystem of the autofacil repository.

The TypeScript cloud functions under `src/cloud-functions/src/scheduling/` are
shallowly embedded below.  Conventions of the embedding:

* Times are rationals measured in hours (the code computes
  `(now - createdAt) / (1000*60*60)` from millisecond dates; we work in the
  hour unit directly, so the acceptance window test `hoursSinceCreation > 2`
  is `now - createdAt > 2`).
* Money amounts are rationals (the code works on JS numbers holding
  integer-reais prices; derived amounts such as `price * 0.5` may be
  fractional, which the rationals represent exactly).
* A JS number that may be `NaN` is modelled by `Option ℚ` (`none` = NaN).
  This matters in `rescheduleBooking`, which reads `booking.pricePerHour`,
  a field no writer ever stores on a booking document, so a reschedule that
  supplies `newDuration` sets `price` to `undefined * newDuration = NaN`.
* `Math.round x` is round-half-up `⌊x + 1/2⌋` (for the non-negative amounts
  appearing here this is exactly the JS behaviour).
* Firestore documents become records, collections become lists, and a
  Firestore transaction becomes a Lean function returning the new state on
  success and the unchanged state on abort.
-/

/-- JS number that may be NaN (`none`). -/
abbrev JsNum := Option ℚ

/-- JS multiplication; NaN propagates. -/
def jsMul : JsNum → JsNum → JsNum
  | some a, some b => some (a * b)
  | _, _ => none

/-- JS addition; NaN propagates. -/
def jsAdd : JsNum → JsNum → JsNum
  | some a, some b => some (a + b)
  | _, _ => none

/-- Floor of a rational, computed so that kernel evaluation works
(`Int.fdiv` is floor division). -/
def ratFloor (a : ℚ) : ℤ := a.num.fdiv a.den

/-- `Math.round` on a non-negative JS number: round half up.  `Math.round NaN = NaN`. -/
def jsRound : JsNum → JsNum
  | some a => some ((ratFloor (a + 1/2) : ℤ) : ℚ)
  | none => none

/-- JS comparison `x > 0`; false when `x` is NaN. -/
def jsGtZero : JsNum → Bool
  | some a => decide (0 < a)
  | none => false

/-- JS subtraction; NaN propagates. -/
def jsSub : JsNum → JsNum → JsNum
  | some a, some b => some (a - b)
  | _, _ => none

/-- JS truthiness of a number: `0` and `NaN` are falsy. -/
def jsTruthy : JsNum → Bool
  | some a => decide (a ≠ 0)
  | none => false

/-- `Math.round` on a plain (non-NaN) non-negative number. -/
def mathRound (a : ℚ) : ℚ := ((ratFloor (a + 1/2) : ℤ) : ℚ)

/-- The two caller roles of `cancelBooking` (`data.userType`). -/
inductive UserType
  | student
  | instructor
deriving DecidableEq, Repr

/-- Booking status enum from `types/booking.types.ts`. -/
inductive BookingStatus
  | pendente
  | confirmada
  | concluida
  | cancelada
deriving DecidableEq, Repr

/-- Result record of `calculateCancellationPolicy` (confirmBooking.ts). -/
structure CancellationPolicy where
  refundPercentage : ℚ
  penaltyAmount : JsNum
  reason : String
deriving DecidableEq, Repr

/-- Embedding of `calculateCancellationPolicy` from
`src/cloud-functions/src/scheduling/confirmBooking.ts` (lines 395-437).
`totalPrice` is `booking.price`, which may be NaN after a duration-changing
reschedule, hence `JsNum`; the branch structure does not look at it. -/
def calculateCancellationPolicy (userType : UserType) (hoursUntilBooking : ℚ)
    (totalPrice : JsNum) : CancellationPolicy :=
  if userType = UserType.student then
    if hoursUntilBooking < 24 then
      { refundPercentage := 1
        penaltyAmount := some 0
        reason := "Cancelamento gratuito (menos de 24h antes da aula)" }
    else
      { refundPercentage := 1/2
        penaltyAmount := jsMul totalPrice (some (1/2))
        reason := "Cancelamento com multa de 50% (mais de 24h antes da aula)" }
  else
    if hoursUntilBooking < 12 then
      { refundPercentage := 1
        penaltyAmount := totalPrice
        reason := "Cancelamento pelo instrutor com menos de 12h (multa de 100%)" }
    else
      { refundPercentage := 1
        penaltyAmount := some 0
        reason := "Cancelamento pelo instrutor sem multa" }

/-- Fee split of `schedulePaymentRelease` from
`src/cloud-functions/src/scheduling/markLessonCompleted.ts` (lines 223-253):
`platformFee = Math.round(totalAmount * 0.15)`,
`instructorAmount = totalAmount - platformFee`. -/
def platformFeeOf (totalAmount : ℚ) : ℚ := mathRound (totalAmount * (15/100))

/-- `instructorAmount` of `schedulePaymentRelease`: always the difference. -/
def instructorAmountOf (totalAmount : ℚ) : ℚ := totalAmount - platformFeeOf totalAmount

/-- The fee the specification describes: a second definition following the
spec words, for comparison with the source definition `platformFeeOf`:
"platformFeePercent (0.15 default, 0.10 if package hours ≥ 20);
platformFeeAmount = round(totalAmount × feePercent)". -/
def specPlatformFee (totalAmount : ℚ) (packageHours : ℕ) : ℚ :=
  if 20 ≤ packageHours then mathRound (totalAmount * (10/100))
  else mathRound (totalAmount * (15/100))

/-! ### External Validation Gateway (spec-modelled)

`markLessonCompleted.ts` enqueues a `detranValidationQueue` record with
`attempts: 0`, but the worker that consumes it (`validateLessonWithDetran`)
is not part of the sources; only the spec describes its retry discipline. -/

/-- ValidationTask state from the spec data model. -/
inductive ValidationState
  | pending
  | validated
  | requiresManualReview
deriving DecidableEq, Repr

/-- A ValidationTask: `bookingId; attempt (0..3); state`. -/
structure ValidationTask where
  bookingId : ℕ
  attempt : ℕ
  state : ValidationState
deriving DecidableEq, Repr

/-- Outcome of one certification call against the external authority. -/
inductive CertifyOutcome
  | success (protocolId : ℕ)
  | timeout
  | transientError
  | permanentError
deriving DecidableEq, Repr

/-- Modelled from the spec: the worker consuming `detranValidationQueue`
(`validateLessonWithDetran`) is missing from the sources; this is the
per-attempt step of section 4.5 of the spec: success (2xx) → Validated;
timeout (10s) → RequiresManualReview with no automatic retry; transient
error (5xx/network) → attempt+1 and retry while fewer than 3 attempts in
total have run, else RequiresManualReview; permanent error (4xx) →
RequiresManualReview. -/
def validationStep (t : ValidationTask) (o : CertifyOutcome) : ValidationTask :=
  match t.state with
  | ValidationState.pending =>
    match o with
    | CertifyOutcome.success _ => { t with state := ValidationState.validated }
    | CertifyOutcome.timeout => { t with state := ValidationState.requiresManualReview }
    | CertifyOutcome.transientError =>
        if t.attempt + 1 < 3 then
          { t with attempt := t.attempt + 1 }
        else
          { t with attempt := t.attempt + 1
                   state := ValidationState.requiresManualReview }
    | CertifyOutcome.permanentError =>
        { t with state := ValidationState.requiresManualReview }
  | _ => t

/-! ### Data model of the booking state machine -/

/-- A booking document (collection `bookings`), after `types/booking.types.ts`
and the writes actually performed by the scheduling functions.  `price` is a
`JsNum` because `rescheduleBooking` can set it to NaN.  `pricePerHour` is a
field the `Booking` interface does not declare and no writer stores; reads of
it yield `undefined`, kept here as an `Option` that is always `none` on
created bookings. -/
structure Booking where
  id : ℕ
  studentId : ℕ
  instructorId : ℕ
  date : ℚ
  duration : ℚ
  status : BookingStatus
  price : JsNum
  depositAmount : ℚ
  remainingAmount : ℚ
  rescheduleCount : ℕ
  createdAt : ℚ
  pricePerHour : Option ℚ
  cancelledBy : Option UserType
  refundAmount : JsNum
  penaltyAmount : JsNum
  rescheduleFee : JsNum
  totalPrice : JsNum
  actualDuration : Option ℚ
deriving DecidableEq, Repr

/-- `true` for the statuses the conflict queries treat as occupying a slot
(`where('status','in',['pendente','confirmada'])`). -/
def Booking.isActive (b : Booking) : Bool :=
  b.status = BookingStatus.pendente || b.status = BookingStatus.confirmada

/-- A calendar slot document (`instructors/{id}/calendar/{dateKey}`). -/
structure CalendarSlot where
  date : ℚ
  reserved : Bool
  bookingId : Option ℕ
deriving DecidableEq, Repr

/-- `formatDateKey`: the document key `YYYY-MM-DD-HH` truncates the date to
the hour; with time measured in hours this is the floor. -/
def formatDateKey (date : ℚ) : ℤ := ratFloor date

/-- A `bookingTimeouts` record (the AcceptanceTimeout DeadlineRecord). -/
structure TimeoutRec where
  bookingId : ℕ
  scheduledFor : ℚ
  processed : Bool
  cancelled : Bool
deriving DecidableEq, Repr

/-- A `refunds` record. -/
structure RefundRec where
  bookingId : ℕ
  amount : JsNum
  reason : String
deriving DecidableEq, Repr

/-- An instructor wallet (`instructors/{id}.wallet`). -/
structure Wallet where
  available : ℚ
  penalties : ℚ
  total : ℚ
deriving DecidableEq, Repr

/-- The zero wallet. -/
def Wallet.zero : Wallet := ⟨0, 0, 0⟩

/-- A `paymentReleaseQueue` record (the PaymentRelease DeadlineRecord),
written by `schedulePaymentRelease`. -/
structure ReleaseRec where
  bookingId : ℕ
  instructorId : ℕ
  totalAmount : JsNum
  platformFee : JsNum
  instructorAmount : JsNum
  scheduledFor : ℚ
  processed : Bool
deriving DecidableEq, Repr

/-- The Firestore state touched by the scheduling functions. -/
structure DB where
  nextId : ℕ
  bookings : List Booking
  calendar : List ((ℕ × ℤ) × CalendarSlot)
  timeouts : List TimeoutRec
  refunds : List RefundRec
  wallets : List (ℕ × Wallet)
  releases : List ReleaseRec
deriving DecidableEq, Repr

/-- The empty store. -/
def DB.init : DB := ⟨0, [], [], [], [], [], []⟩

/-- Calendar lookup by `(instructorId, formatDateKey date)`. -/
def DB.calSlot (s : DB) (k : ℕ × ℤ) : Option CalendarSlot :=
  (s.calendar.find? (fun e => e.1 = k)).map (fun e => e.2)

/-- `transaction.set(..., { merge: true })` on a calendar slot: replace the
entry if present, else insert it. -/
def calSet (cal : List ((ℕ × ℤ) × CalendarSlot)) (k : ℕ × ℤ) (v : CalendarSlot) :
    List ((ℕ × ℤ) × CalendarSlot) :=
  if cal.any (fun e => e.1 = k) then
    cal.map (fun e => if e.1 = k then (k, v) else e)
  else
    (k, v) :: cal

/-- Deleting a calendar slot document. -/
def calDelete (cal : List ((ℕ × ℤ) × CalendarSlot)) (k : ℕ × ℤ) :
    List ((ℕ × ℤ) × CalendarSlot) :=
  cal.filter (fun e => ¬ e.1 = k)

/-- Booking lookup by document id. -/
def DB.booking (s : DB) (bid : ℕ) : Option Booking :=
  s.bookings.find? (fun b => b.id = bid)

/-- Wallet lookup (instructor documents are assumed to exist; a missing
entry reads as the zero wallet). -/
def DB.wallet (s : DB) (iid : ℕ) : Wallet :=
  ((s.wallets.find? (fun e => e.1 = iid)).map (fun e => e.2)).getD Wallet.zero

/-- Atomic wallet increment (`FieldValue.increment`) applied through `f`. -/
def walletUpdate (ws : List (ℕ × Wallet)) (iid : ℕ) (f : Wallet → Wallet) :
    List (ℕ × Wallet) :=
  if ws.any (fun e => e.1 = iid) then
    ws.map (fun e => if e.1 = iid then (e.1, f e.2) else e)
  else
    (iid, f Wallet.zero) :: ws

/-! ### Operations

Each cloud function becomes `DB → args → DB × result`; a thrown
`FunctionError` (or an aborted transaction) returns the state unchanged
except for writes the code had already awaited before throwing.
Side collections not relevant to the claims (notifications, payments,
payment intents, the Detran queue) are not tracked. -/

/-- Error taxonomy of `utils/errors` as used by the scheduling functions;
`conflict` stands for the 409-status VALIDATION_ERROR throws of the slot
checks, `internal` for a write that throws outside a guard. -/
inductive ErrCode
  | validation
  | conflict
  | notFound
  | unauthorized
  | internal
deriving DecidableEq, Repr

/-- Result of an operation: the booking id on success, or the error. -/
inductive OpResult
  | ok (bookingId : ℕ)
  | err (e : ErrCode)
deriving DecidableEq, Repr

/-- Request body of `createBooking` plus the caller uid and the
`pricePerHour` read from the instructor document (`|| 80` applied). -/
structure CreateReq where
  studentId : ℕ
  instructorId : ℕ
  date : ℚ
  duration : ℚ
  pricePerHour : ℚ
deriving DecidableEq, Repr

/-- The booking document written by `createBooking`'s transaction:
`price = pricePerHour * duration`, `depositAmount = Math.round(price*0.2)`,
`remainingAmount = price - depositAmount`, status `pendente`,
`rescheduleCount 0`; no `pricePerHour` field is stored. -/
def newBookingOf (s : DB) (r : CreateReq) (now : ℚ) : Booking :=
  { id := s.nextId
    studentId := r.studentId
    instructorId := r.instructorId
    date := r.date
    duration := r.duration
    status := BookingStatus.pendente
    price := some (r.pricePerHour * r.duration)
    depositAmount := mathRound (r.pricePerHour * r.duration * (20/100))
    remainingAmount := r.pricePerHour * r.duration
      - mathRound (r.pricePerHour * r.duration * (20/100))
    rescheduleCount := 0
    createdAt := now
    pricePerHour := none
    cancelledBy := none
    refundAmount := none
    penaltyAmount := none
    rescheduleFee := none
    totalPrice := none
    actualDuration := none }

/-- The state after a successful `createBooking`: booking stored, calendar
slot reserved for it, acceptance-timeout record scheduled at `now + 2`. -/
def createSuccessState (s : DB) (r : CreateReq) (now : ℚ) : DB :=
  { s with
      nextId := s.nextId + 1
      bookings := newBookingOf s r now :: s.bookings
      calendar := calSet s.calendar (r.instructorId, formatDateKey r.date)
        ⟨r.date, true, some s.nextId⟩
      timeouts := TimeoutRec.mk s.nextId (now + 2) false false :: s.timeouts }

/-- Embedding of `createBooking` (createBooking.ts, lines 29-232): input
validation, then the atomic transaction of lines 104-173 — conflict check on
active bookings at the same exact date, conflict check on the reserved
calendar slot, booking creation and slot reservation — then the scheduling
of the 2h acceptance timeout (line 190). -/
def createBooking (s : DB) (r : CreateReq) (now : ℚ) : DB × OpResult :=
  if r.duration < 1 ∨ 4 < r.duration then (s, OpResult.err ErrCode.validation)
  else if r.date ≤ now then (s, OpResult.err ErrCode.validation)
  else if s.bookings.any (fun b =>
      b.instructorId = r.instructorId ∧ b.date = r.date ∧ b.isActive) then
    (s, OpResult.err ErrCode.conflict)
  else if ((s.calSlot (r.instructorId, formatDateKey r.date)).map
      (fun c => c.reserved)).getD false then
    (s, OpResult.err ErrCode.conflict)
  else
    (createSuccessState s r now, OpResult.ok s.nextId)

/-- The booking update of `confirmBooking`: set status `confirmada`. -/
def confirmUpd (bid : ℕ) (x : Booking) : Booking :=
  if x.id = bid then { x with status := BookingStatus.confirmada } else x

/-- The `cancelTimeoutJob` batch update: every unprocessed timeout record of
the booking becomes processed and cancelled. -/
def confirmTimeoutUpd (bid : ℕ) (t : TimeoutRec) : TimeoutRec :=
  if t.bookingId = bid ∧ t.processed = false then
    { t with processed := true, cancelled := true }
  else t

/-- Embedding of `confirmBooking` (confirmBooking.ts, lines 18-139):
ownership, status and 2h-window guards, then the status update and
`cancelTimeoutJob` (lines 168-189), which marks every unprocessed
`bookingTimeouts` record of the booking as processed and cancelled. -/
def confirmBooking (s : DB) (caller bid : ℕ) (now : ℚ) : DB × OpResult :=
  match s.booking bid with
  | none => (s, OpResult.err ErrCode.notFound)
  | some b =>
    if b.instructorId ≠ caller then (s, OpResult.err ErrCode.unauthorized)
    else if b.status ≠ BookingStatus.pendente then (s, OpResult.err ErrCode.validation)
    else if 2 < now - b.createdAt then (s, OpResult.err ErrCode.validation)
    else
      ({ s with
          bookings := s.bookings.map (confirmUpd bid)
          timeouts := s.timeouts.map (confirmTimeoutUpd bid) },
       OpResult.ok bid)

/-- The booking update of `cancelBooking`: status `cancelada`, actor,
`refundAmount = policy.refundPercentage * booking.price` (unrounded) and
`penaltyAmount` as computed by the policy. -/
def cancelUpd (bid : ℕ) (ut : UserType) (pol : CancellationPolicy) (x : Booking) : Booking :=
  if x.id = bid then
    { x with
        status := BookingStatus.cancelada
        cancelledBy := some ut
        refundAmount := jsMul (some pol.refundPercentage) x.price
        penaltyAmount := pol.penaltyAmount }
  else x

/-- The writes of a successful `cancelBooking` (confirmBooking.ts, lines
286-341): the booking update, the calendar slot release, the refund record
when the rounded refund is positive, and `applyInstructorPenalty` only when
`penaltyAmount > 0 && userType === 'instructor'`.  The slot lookup was done
on the state after the booking update, whose calendar equals the calendar
of `s`. -/
def cancelSuccessState (s : DB) (b : Booking) (bid : ℕ) (ut : UserType) (now : ℚ)
    (slot : CalendarSlot) : DB :=
  let policy := calculateCancellationPolicy ut (b.date - now) b.price
  let s1 : DB := { s with bookings := s.bookings.map (cancelUpd bid ut policy) }
  let released : CalendarSlot := { slot with reserved := false, bookingId := none }
  let s2 : DB :=
    { s1 with calendar :=
        calSet s1.calendar (b.instructorId, formatDateKey b.date) released }
  let refundRounded := jsRound (jsMul (some policy.refundPercentage) b.price)
  let refundRec : RefundRec :=
    { bookingId := bid, amount := refundRounded, reason := policy.reason }
  let s3 : DB :=
    if jsGtZero refundRounded then { s2 with refunds := refundRec :: s2.refunds }
    else s2
  match policy.penaltyAmount with
  | some p =>
    if 0 < p ∧ ut = UserType.instructor then
      { s3 with wallets := walletUpdate s3.wallets b.instructorId (fun w =>
          { w with available := w.available - p, penalties := w.penalties + p }) }
    else s3
  | none => s3

/-- Embedding of `cancelBooking` (confirmBooking.ts, lines 216-390):
authorization and status guards; `calculateCancellationPolicy`; booking
update (status, cancelledBy, refundAmount, penaltyAmount); calendar slot
release; refund record when `refundAmount > 0`; `applyInstructorPenalty`
(lines 482-514, wallet debit and penalties credit) only when
`penaltyAmount > 0 && userType === 'instructor'`.  The slot release is a
plain `update` outside any transaction: when the slot document is missing it
throws after the booking status write has already been awaited. -/
def cancelBooking (s : DB) (caller : ℕ) (userType : UserType) (bid : ℕ) (now : ℚ) :
    DB × OpResult :=
  match s.booking bid with
  | none => (s, OpResult.err ErrCode.notFound)
  | some b =>
    if userType = UserType.student ∧ b.studentId ≠ caller then
      (s, OpResult.err ErrCode.unauthorized)
    else if userType = UserType.instructor ∧ b.instructorId ≠ caller then
      (s, OpResult.err ErrCode.unauthorized)
    else if b.status = BookingStatus.cancelada then (s, OpResult.err ErrCode.validation)
    else if b.status = BookingStatus.concluida then (s, OpResult.err ErrCode.validation)
    else
      let policy := calculateCancellationPolicy userType (b.date - now) b.price
      let s1 : DB := { s with bookings := s.bookings.map (cancelUpd bid userType policy) }
      match s.calSlot (b.instructorId, formatDateKey b.date) with
      | none => (s1, OpResult.err ErrCode.internal)
      | some slot => (cancelSuccessState s b bid userType now slot, OpResult.ok bid)

/-- The booking update of `markLessonCompleted`: status `concluida` and the
reported actual duration. -/
def completeUpd (bid : ℕ) (d : ℚ) (x : Booking) : Booking :=
  if x.id = bid then
    { x with status := BookingStatus.concluida, actualDuration := some d }
  else x

/-- Embedding of `markLessonCompleted` (markLessonCompleted.ts, lines
22-156).  Guards: falsy `actualDuration`, missing booking, wrong instructor,
status already `concluida`, lesson date in the future.  No other status is
rejected.  Effects kept: the booking update (status, actualDuration) and
`schedulePaymentRelease` (lines 223-253), which computes the 15% fee split
from `booking.price` and enqueues a `paymentReleaseQueue` record due 24h
later. -/
def markLessonCompleted (s : DB) (caller bid : ℕ) (actualDuration : ℚ) (now : ℚ) :
    DB × OpResult :=
  if actualDuration = 0 then (s, OpResult.err ErrCode.validation)
  else
    match s.booking bid with
    | none => (s, OpResult.err ErrCode.notFound)
    | some b =>
      if b.instructorId ≠ caller then (s, OpResult.err ErrCode.unauthorized)
      else if b.status = BookingStatus.concluida then (s, OpResult.err ErrCode.validation)
      else if now < b.date then (s, OpResult.err ErrCode.validation)
      else
        let fee := jsRound (jsMul b.price (some (15/100)))
        let rel : ReleaseRec :=
          { bookingId := bid
            instructorId := b.instructorId
            totalAmount := b.price
            platformFee := fee
            instructorAmount := jsSub b.price fee
            scheduledFor := now + 24
            processed := false }
        ({ s with
            bookings := s.bookings.map (completeUpd bid actualDuration)
            releases := rel :: s.releases },
         OpResult.ok bid)

/-! The two deadline handlers (`processBookingTimeouts`, createBooking.ts
lines 366-439, and `processPaymentReleases`, markLessonCompleted.ts lines
348-409) perform several independent awaited writes per queue record, with
the `processed` mark written last and in no transaction with the others.
To reason about a handler that crashes mid-record and is redelivered, the
loop body is given as its list of writes in program order; running the
handler applies them all, a crash applies a prefix.  (The notification and
walletTransaction writes sitting between these are not tracked; they do not
change which crash points exist around the tracked writes.) -/

/-- Applies a list of writes in order. -/
def applyWrites (ws : List (DB → DB)) (s : DB) : DB :=
  ws.foldl (fun st w => w st) s

/-- The booking update of the timeout auto-cancel: status `cancelada`. -/
def statusCancelUpd (bid : ℕ) (x : Booking) : Booking :=
  if x.id = bid then { x with status := BookingStatus.cancelada } else x

/-- Write: set a booking's status to `cancelada` (timeout auto-cancel). -/
def wCancelBooking (bid : ℕ) : DB → DB := fun s =>
  { s with bookings := s.bookings.map (statusCancelUpd bid) }

/-- Write: delete a calendar slot document. -/
def wDeleteSlot (k : ℕ × ℤ) : DB → DB := fun s =>
  { s with calendar := calDelete s.calendar k }

/-- Write: append a refund record. -/
def wAddRefund (bid : ℕ) (amount : JsNum) (reason : String) : DB → DB := fun s =>
  { s with refunds := { bookingId := bid, amount := amount, reason := reason } :: s.refunds }

/-- Write: mark the timeout record of a booking processed (each booking has
exactly one `bookingTimeouts` record, so the bookingId identifies it). -/
def wMarkTimeoutProcessed (bid : ℕ) : DB → DB := fun s =>
  { s with timeouts := s.timeouts.map (fun t =>
      if t.bookingId = bid then { t with processed := true } else t) }

/-- The update of `wMarkReleaseProcessed` on one release record. -/
def markReleaseUpd (bid : ℕ) (r : ReleaseRec) : ReleaseRec :=
  if r.bookingId = bid then { r with processed := true } else r

/-- The writes of one `processBookingTimeouts` loop iteration, in program
order, as decided from the state read at its start: a still-`pendente`
booking is auto-cancelled (status write, slot delete, 100%-deposit refund)
and the timeout record is marked processed; any other observation only
marks the record processed. -/
def timeoutWrites (s : DB) (bid : ℕ) (now : ℚ) : List (DB → DB) :=
  match s.timeouts.find? (fun t => t.bookingId = bid ∧ ¬ t.processed ∧ t.scheduledFor ≤ now) with
  | none => []
  | some _ =>
    match s.booking bid with
    | none => [wMarkTimeoutProcessed bid]
    | some b =>
      if b.status = BookingStatus.pendente then
        [wCancelBooking bid,
         wDeleteSlot (b.instructorId, formatDateKey b.date),
         wAddRefund bid (some b.depositAmount) "timeout",
         wMarkTimeoutProcessed bid]
      else
        [wMarkTimeoutProcessed bid]

/-- One completed iteration of the `processBookingTimeouts` loop body for
the record of booking `bid` (it must be due and unprocessed to be acted
on). -/
def processBookingTimeout (s : DB) (bid : ℕ) (now : ℚ) : DB :=
  applyWrites (timeoutWrites s bid now) s

/-- The same iteration crashing after its first `n` writes. -/
def processBookingTimeoutCrash (s : DB) (bid : ℕ) (now : ℚ) (n : ℕ) : DB :=
  applyWrites ((timeoutWrites s bid now).take n) s

/-- The booking update of `rescheduleBooking`: new date, incremented
`rescheduleCount`, optionally the new duration with
`price := booking.pricePerHour * newDuration`, and when the fee is
positive also `rescheduleFee` and
`totalPrice = (updates.price || booking.price) + fee` (JS `||`: a NaN or
zero freshly-computed price falls back to the stored price). -/
def reschedUpd (bid : ℕ) (newDate : ℚ) (newDuration : Option ℚ)
    (newPrice fee : JsNum) (x : Booking) : Booking :=
  if x.id = bid then
    let x1 := { x with date := newDate, rescheduleCount := x.rescheduleCount + 1 }
    let x2 :=
      match newDuration with
      | some d => { x1 with duration := d, price := newPrice }
      | none => x1
    if jsGtZero fee then
      let base : JsNum :=
        match newDuration with
        | some _ => if jsTruthy newPrice then newPrice else x.price
        | none => x.price
      { x2 with rescheduleFee := fee, totalPrice := jsAdd base fee }
    else x2
  else x

/-- Result of `rescheduleBooking`: the returned fee and new count. -/
inductive RescheduleResult
  | ok (fee : JsNum) (rescheduleCount : ℕ)
  | err (e : ErrCode)
deriving DecidableEq, Repr

/-- Embedding of `rescheduleBooking` (rescheduleBooking.ts, lines 17-217).
Inside one transaction: ownership and status guards; the fee
(`rescheduleCount > 0 ? Math.round(booking.price * 0.1) : 0`, line 87,
computed from the price currently stored on the booking); conflict check on
active bookings at the exact new date (the hour-truncated calendar key of
the new slot is NOT checked); release of the old slot (a transactional
`update` that aborts everything when the document is missing); blind
set-merge reservation of the new slot; booking update — `date`,
`rescheduleCount+1`, optionally `duration` and
`price := booking.pricePerHour * newDuration` (NaN: bookings never store
`pricePerHour`), and when `fee > 0` also `rescheduleFee` and
`totalPrice = (updates.price || booking.price) + fee` (NaN is falsy, so the
fallback applies whenever the price was just overwritten). -/
def rescheduleBooking (s : DB) (caller bid : ℕ) (newDate : ℚ)
    (newDuration : Option ℚ) (now : ℚ) : DB × RescheduleResult :=
  if newDate ≤ now then (s, RescheduleResult.err ErrCode.validation)
  else
    match s.booking bid with
    | none => (s, RescheduleResult.err ErrCode.notFound)
    | some b =>
      if b.studentId ≠ caller then (s, RescheduleResult.err ErrCode.unauthorized)
      else if ¬ (b.status = BookingStatus.pendente ∨ b.status = BookingStatus.confirmada) then
        (s, RescheduleResult.err ErrCode.validation)
      else
        let fee : JsNum :=
          if 0 < b.rescheduleCount then jsRound (jsMul b.price (some (1/10))) else some 0
        if s.bookings.any (fun x =>
            x.instructorId = b.instructorId ∧ x.date = newDate ∧ x.isActive) then
          (s, RescheduleResult.err ErrCode.conflict)
        else
          match s.calSlot (b.instructorId, formatDateKey b.date) with
          | none => (s, RescheduleResult.err ErrCode.internal)
          | some oldSlot =>
            let releasedOld : CalendarSlot := { oldSlot with reserved := false, bookingId := none }
            let newSlot : CalendarSlot :=
              { date := newDate, reserved := true, bookingId := some bid }
            let newPrice : JsNum := jsMul b.pricePerHour (some (newDuration.getD 0))
            ({ s with
                bookings := s.bookings.map (reschedUpd bid newDate newDuration newPrice fee)
                calendar :=
                  calSet
                    (calSet s.calendar (b.instructorId, formatDateKey b.date) releasedOld)
                    (b.instructorId, formatDateKey newDate) newSlot },
             RescheduleResult.ok fee (b.rescheduleCount + 1))

/-- Write: credit an instructor wallet (`wallet.available` and
`wallet.total` incremented by `instructorAmount`).  A NaN amount does not
arise in the modelled flows and is kept as a no-op. -/
def wCreditWallet (iid : ℕ) (amount : JsNum) : DB → DB := fun s =>
  match amount with
  | some a =>
    { s with wallets := walletUpdate s.wallets iid (fun w =>
        { w with available := w.available + a, total := w.total + a }) }
  | none => s

/-- Write: mark a `paymentReleaseQueue` record processed (one record per
booking, so the bookingId identifies it). -/
def wMarkReleaseProcessed (bid : ℕ) : DB → DB := fun s =>
  { s with releases := s.releases.map (markReleaseUpd bid) }

/-- The writes of one `processPaymentReleases` loop iteration
(markLessonCompleted.ts, lines 365-404), in program order: the wallet
credit comes first, the `processed` mark last, with no transaction around
them. -/
def releaseWrites (r : ReleaseRec) : List (DB → DB) :=
  [wCreditWallet r.instructorId r.instructorAmount,
   wMarkReleaseProcessed r.bookingId]

/-- Embedding of `processPaymentReleases`: every due, unprocessed record of
the queue snapshot is processed in turn. -/
def processPaymentReleases (s : DB) (now : ℚ) : DB :=
  (s.releases.filter (fun r => r.scheduledFor ≤ now ∧ r.processed = false)).foldl
    (fun st r => applyWrites (releaseWrites r) st) s

/-- `processPaymentReleases` crashing after the first `n` writes of the
first due record's processing. -/
def processPaymentReleasesCrash (s : DB) (now : ℚ) (n : ℕ) : DB :=
  match s.releases.filter (fun r => r.scheduledFor ≤ now ∧ r.processed = false) with
  | [] => s
  | r :: _ => applyWrites ((releaseWrites r).take n) s

/-! ### Reachability -/

/-- One step of the booking state machine: any scheduling cloud function,
or one deadline-handler iteration run to completion. -/
inductive Step : DB → DB → Prop
  | create (s : DB) (r : CreateReq) (now : ℚ) : Step s (createBooking s r now).1
  | confirm (s : DB) (caller bid : ℕ) (now : ℚ) : Step s (confirmBooking s caller bid now).1
  | cancel (s : DB) (caller : ℕ) (ut : UserType) (bid : ℕ) (now : ℚ) :
      Step s (cancelBooking s caller ut bid now).1
  | complete (s : DB) (caller bid : ℕ) (d now : ℚ) :
      Step s (markLessonCompleted s caller bid d now).1
  | timeout (s : DB) (bid : ℕ) (now : ℚ) : Step s (processBookingTimeout s bid now)
  | reschedule (s : DB) (caller bid : ℕ) (newDate : ℚ) (newDuration : Option ℚ) (now : ℚ) :
      Step s (rescheduleBooking s caller bid newDate newDuration now).1

/-- States reachable from the empty store. -/
inductive Reachable : DB → Prop
  | init : Reachable DB.init
  | step {s s' : DB} : Reachable s → Step s s' → Reachable s'

/-! ### Invariant predicates -/

/-- Booking ids are below the id counter and pairwise distinct. -/
def IdsOk (s : DB) : Prop :=
  (∀ b ∈ s.bookings, b.id < s.nextId) ∧
    s.bookings.Pairwise (fun a b => a.id ≠ b.id)

/-- At most one active booking per instructor and exact start time (the
granularity at which the conflict queries of `createBooking` and
`rescheduleBooking` compare dates). -/
def ExactSlotInvariant (s : DB) : Prop :=
  ∀ b₁ ∈ s.bookings, ∀ b₂ ∈ s.bookings,
    b₁.isActive → b₂.isActive → b₁.instructorId = b₂.instructorId →
      b₁.date = b₂.date → b₁.id = b₂.id

/-- At most one active booking per instructor and calendar slot key — the
claimed invariant, at the hour granularity of `formatDateKey`. -/
def SlotKeyInvariant (s : DB) : Prop :=
  ∀ b₁ ∈ s.bookings, ∀ b₂ ∈ s.bookings,
    b₁.isActive → b₂.isActive → b₁.instructorId = b₂.instructorId →
      formatDateKey b₁.date = formatDateKey b₂.date → b₁.id = b₂.id

/-- The money identity of the spec data model, for every stored booking:
`depositAmount + remainingAmount == price`. -/
def MoneyInv (s : DB) : Prop :=
  ∀ b ∈ s.bookings, b.price = some (b.depositAmount + b.remainingAmount)

/-- Refund records of one booking. -/
def countRefunds (s : DB) (bid : ℕ) : ℕ :=
  (s.refunds.filter (fun r => r.bookingId = bid)).length

/-! ### List helpers -/

/-- `find?` commutes with a map that does not change the predicate. -/
theorem find?_map_comm {α : Type} (g : α → α) (p : α → Bool)
    (hp : ∀ a, p (g a) = p a) (l : List α) :
    (l.map g).find? p = (l.find? p).map g := by
  induction l with
  | nil => rfl
  | cons a t ih =>
    simp only [List.map_cons, List.find?]
    rw [hp a]
    cases h : p a
    · exact ih
    · rfl

/-- In a list of bookings with pairwise-distinct ids, `find?` by id finds
exactly the member carrying that id. -/
theorem find?_unique_id (l : List Booking)
    (hnd : l.Pairwise (fun a b => a.id ≠ b.id)) {a : Booking} {bid : ℕ}
    (ha : a ∈ l) (hid : a.id = bid) :
    l.find? (fun b => b.id = bid) = some a := by
  induction l with
  | nil => cases ha
  | cons x t ih =>
    rcases List.pairwise_cons.mp hnd with ⟨hx, ht⟩
    rcases List.mem_cons.mp ha with rfl | hat
    · simp [List.find?, hid]
    · have hxid : x.id ≠ bid := by
        intro h
        exact hx a hat (h.trans hid.symm)
      simp only [List.find?]
      rw [decide_eq_false hxid]
      exact ih ht hat

/-- The combined structural invariant carried through reachability. -/
def StateInv (s : DB) : Prop := IdsOk s ∧ ExactSlotInvariant s

/-- The empty store satisfies the invariant. -/
theorem stateInv_init : StateInv DB.init := by
  refine ⟨⟨?_, List.Pairwise.nil⟩, ?_⟩
  · intro b hb; cases hb
  · intro b₁ hb₁; cases hb₁

/-- `createBooking` preserves the structural invariant. -/
theorem stateInv_create (s : DB) (r : CreateReq) (now : ℚ) (h : StateInv s) :
    StateInv (createBooking s r now).1 := by
  obtain ⟨⟨hbound, hnd⟩, hex⟩ := h
  unfold createBooking
  split
  · exact ⟨⟨hbound, hnd⟩, hex⟩
  split
  · exact ⟨⟨hbound, hnd⟩, hex⟩
  split
  · exact ⟨⟨hbound, hnd⟩, hex⟩
  split
  · exact ⟨⟨hbound, hnd⟩, hex⟩
  rename_i hdur hdate hany hcal
  have hany' : ∀ x ∈ s.bookings,
      ¬(x.instructorId = r.instructorId ∧ x.date = r.date ∧ x.isActive = true) := by
    intro x hx hcontra
    exact hany (List.any_eq_true.mpr ⟨x, hx, by
      simpa using hcontra⟩)
  refine ⟨⟨?_, ?_⟩, ?_⟩
  · intro x hx
    rcases List.mem_cons.mp hx with rfl | hx'
    · exact Nat.lt_succ_self _
    · exact Nat.lt_succ_of_lt (hbound x hx')
  · refine List.pairwise_cons.mpr ⟨?_, hnd⟩
    intro y hy
    show s.nextId ≠ y.id
    exact ne_of_gt (hbound y hy)
  · intro x₁ hx₁ x₂ hx₂ ha₁ ha₂ hinstr hdate'
    rcases List.mem_cons.mp hx₁ with rfl | h₁ <;> rcases List.mem_cons.mp hx₂ with rfl | h₂
    · rfl
    · exact absurd ⟨hinstr.symm, hdate'.symm, ha₂⟩ (hany' x₂ h₂)
    · exact absurd ⟨hinstr, hdate', ha₁⟩ (hany' x₁ h₁)
    · exact hex x₁ h₁ x₂ h₂ ha₁ ha₂ hinstr hdate'

/-- An id-preserving booking map keeps the id bound. -/
theorem bound_map (l : List Booking) (n : ℕ) (f : Booking → Booking)
    (hf : ∀ x, (f x).id = x.id) (h : ∀ b ∈ l, b.id < n) :
    ∀ b ∈ l.map f, b.id < n := by
  intro b hb
  rcases List.mem_map.mp hb with ⟨a, ha, rfl⟩
  rw [hf a]
  exact h a ha

/-- An id-preserving booking map keeps ids pairwise distinct. -/
theorem pairwise_ids_map (l : List Booking) (f : Booking → Booking)
    (hf : ∀ x, (f x).id = x.id)
    (h : l.Pairwise (fun a b => a.id ≠ b.id)) :
    (l.map f).Pairwise (fun a b => a.id ≠ b.id) := by
  refine List.pairwise_map.mpr (h.imp ?_)
  intro a b hab
  rw [hf a, hf b]
  exact hab

/-- Exact-date slot exclusivity is preserved by a booking map that keeps
id, instructor and date and makes no list member newly active. -/
theorem exact_map (l : List Booking) (f : Booking → Booking)
    (hid : ∀ x, (f x).id = x.id)
    (hinstr : ∀ x, (f x).instructorId = x.instructorId)
    (hdate : ∀ x, (f x).date = x.date)
    (hact : ∀ x ∈ l, (f x).isActive = true → x.isActive = true)
    (h : ∀ b₁ ∈ l, ∀ b₂ ∈ l, b₁.isActive → b₂.isActive →
      b₁.instructorId = b₂.instructorId → b₁.date = b₂.date → b₁.id = b₂.id) :
    ∀ b₁ ∈ l.map f, ∀ b₂ ∈ l.map f, b₁.isActive → b₂.isActive →
      b₁.instructorId = b₂.instructorId → b₁.date = b₂.date → b₁.id = b₂.id := by
  intro b₁ hb₁ b₂ hb₂ ha₁ ha₂ hi hd
  rcases List.mem_map.mp hb₁ with ⟨a₁, hm₁, rfl⟩
  rcases List.mem_map.mp hb₂ with ⟨a₂, hm₂, rfl⟩
  rw [hid a₁, hid a₂]
  rw [hinstr a₁, hinstr a₂] at hi
  rw [hdate a₁, hdate a₂] at hd
  exact h a₁ hm₁ a₂ hm₂ (hact a₁ hm₁ ha₁) (hact a₂ hm₂ ha₂) hi hd

/-- `confirmBooking` preserves the structural invariant. -/
theorem stateInv_confirm (s : DB) (caller bid : ℕ) (now : ℚ) (h : StateInv s) :
    StateInv (confirmBooking s caller bid now).1 := by
  obtain ⟨⟨hbound, hnd⟩, hex⟩ := h
  unfold confirmBooking
  split
  · exact ⟨⟨hbound, hnd⟩, hex⟩
  rename_i b hfind
  split
  · exact ⟨⟨hbound, hnd⟩, hex⟩
  split
  · exact ⟨⟨hbound, hnd⟩, hex⟩
  split
  · exact ⟨⟨hbound, hnd⟩, hex⟩
  rename_i hown hst hwin
  have hid : ∀ x, (confirmUpd bid x).id = x.id := by
    intro x; unfold confirmUpd; split <;> rfl
  have hstatus : b.status = BookingStatus.pendente := by
    by_contra hc
    exact hst hc
  refine ⟨⟨?_, ?_⟩, ?_⟩
  · exact bound_map s.bookings s.nextId _ hid hbound
  · exact pairwise_ids_map s.bookings _ hid hnd
  · refine exact_map s.bookings _ hid ?_ ?_ ?_ hex
    · intro x; unfold confirmUpd; split <;> rfl
    · intro x; unfold confirmUpd; split <;> rfl
    · intro x hx hax
      by_cases hxb : x.id = bid
      · have hfx : s.bookings.find? (fun y => y.id = bid) = some x :=
          find?_unique_id s.bookings hnd hx hxb
        have hxeq : x = b := by
          have h2 : some x = some b := hfx.symm.trans hfind
          exact (Option.some.injEq _ _).mp h2
        rw [hxeq]
        simp [Booking.isActive, hstatus]
      · unfold confirmUpd at hax
        rw [if_neg hxb] at hax
        exact hax

/-- `cancelBooking` preserves the structural invariant. -/
theorem stateInv_cancel (s : DB) (caller : ℕ) (ut : UserType) (bid : ℕ) (now : ℚ)
    (h : StateInv s) : StateInv (cancelBooking s caller ut bid now).1 := by
  obtain ⟨⟨hbound, hnd⟩, hex⟩ := h
  have hid : ∀ pol (x : Booking), (cancelUpd bid ut pol x).id = x.id := by
    intro pol x; unfold cancelUpd; split <;> rfl
  have hinstr : ∀ pol (x : Booking),
      (cancelUpd bid ut pol x).instructorId = x.instructorId := by
    intro pol x; unfold cancelUpd; split <;> rfl
  have hdate : ∀ pol (x : Booking), (cancelUpd bid ut pol x).date = x.date := by
    intro pol x; unfold cancelUpd; split <;> rfl
  have hact : ∀ pol, ∀ x ∈ s.bookings,
      (cancelUpd bid ut pol x).isActive = true → x.isActive = true := by
    intro pol x _ hax
    unfold cancelUpd at hax
    by_cases hxb : x.id = bid
    · rw [if_pos hxb] at hax
      simp [Booking.isActive] at hax
    · rw [if_neg hxb] at hax
      exact hax
  have hmain : ∀ pol, StateInv { s with bookings := s.bookings.map (cancelUpd bid ut pol) } :=
    fun pol => ⟨⟨bound_map _ _ _ (hid pol) hbound, pairwise_ids_map _ _ (hid pol) hnd⟩,
      exact_map _ _ (hid pol) (hinstr pol) (hdate pol) (hact pol) hex⟩
  unfold cancelBooking
  split
  · exact ⟨⟨hbound, hnd⟩, hex⟩
  rename_i b hfind
  split
  · exact ⟨⟨hbound, hnd⟩, hex⟩
  split
  · exact ⟨⟨hbound, hnd⟩, hex⟩
  split
  · exact ⟨⟨hbound, hnd⟩, hex⟩
  split
  · exact ⟨⟨hbound, hnd⟩, hex⟩
  dsimp only
  repeat' split
  all_goals first
    | exact ⟨⟨hbound, hnd⟩, hex⟩
    | exact hmain _
    | (unfold cancelSuccessState
       dsimp only
       repeat' split
       all_goals exact hmain _)

/-- `markLessonCompleted` preserves the structural invariant. -/
theorem stateInv_complete (s : DB) (caller bid : ℕ) (d now : ℚ) (h : StateInv s) :
    StateInv (markLessonCompleted s caller bid d now).1 := by
  obtain ⟨⟨hbound, hnd⟩, hex⟩ := h
  have hid : ∀ x, (completeUpd bid d x).id = x.id := by
    intro x; unfold completeUpd; split <;> rfl
  have hact : ∀ x ∈ s.bookings, (completeUpd bid d x).isActive = true → x.isActive = true := by
    intro x _ hax
    unfold completeUpd at hax
    by_cases hxb : x.id = bid
    · rw [if_pos hxb] at hax
      simp [Booking.isActive] at hax
    · rw [if_neg hxb] at hax
      exact hax
  unfold markLessonCompleted
  split
  · exact ⟨⟨hbound, hnd⟩, hex⟩
  split
  · exact ⟨⟨hbound, hnd⟩, hex⟩
  rename_i b hfind
  split
  · exact ⟨⟨hbound, hnd⟩, hex⟩
  split
  · exact ⟨⟨hbound, hnd⟩, hex⟩
  split
  · exact ⟨⟨hbound, hnd⟩, hex⟩
  dsimp only
  refine ⟨⟨?_, ?_⟩, ?_⟩
  · exact bound_map s.bookings s.nextId _ hid hbound
  · exact pairwise_ids_map s.bookings _ hid hnd
  · refine exact_map s.bookings _ hid ?_ ?_ hact hex
    · intro x; unfold completeUpd; split <;> rfl
    · intro x; unfold completeUpd; split <;> rfl

/-- `processBookingTimeout` preserves the structural invariant. -/
theorem stateInv_timeout (s : DB) (bid : ℕ) (now : ℚ) (h : StateInv s) :
    StateInv (processBookingTimeout s bid now) := by
  obtain ⟨⟨hbound, hnd⟩, hex⟩ := h
  have hid : ∀ x, (statusCancelUpd bid x).id = x.id := by
    intro x; unfold statusCancelUpd; split <;> rfl
  have hact : ∀ x ∈ s.bookings,
      (statusCancelUpd bid x).isActive = true → x.isActive = true := by
    intro x _ hax
    unfold statusCancelUpd at hax
    by_cases hxb : x.id = bid
    · rw [if_pos hxb] at hax
      simp [Booking.isActive] at hax
    · rw [if_neg hxb] at hax
      exact hax
  unfold processBookingTimeout timeoutWrites
  split
  · exact ⟨⟨hbound, hnd⟩, hex⟩
  split
  · exact ⟨⟨hbound, hnd⟩, hex⟩
  rename_i b hfind
  split
  · refine ⟨⟨?_, ?_⟩, ?_⟩
    · exact bound_map s.bookings s.nextId _ hid hbound
    · exact pairwise_ids_map s.bookings _ hid hnd
    · refine exact_map s.bookings _ hid ?_ ?_ hact hex
      · intro x; unfold statusCancelUpd; split <;> rfl
      · intro x; unfold statusCancelUpd; split <;> rfl
  · exact ⟨⟨hbound, hnd⟩, hex⟩

/-- Field facts of `reschedUpd`: id preserved. -/
theorem reschedUpd_id (bid : ℕ) (newDate : ℚ) (nd : Option ℚ) (p f : JsNum)
    (x : Booking) : (reschedUpd bid newDate nd p f x).id = x.id := by
  unfold reschedUpd
  split
  · dsimp only
    cases nd <;> split <;> rfl
  · rfl

/-- Field facts of `reschedUpd`: instructor preserved. -/
theorem reschedUpd_instr (bid : ℕ) (newDate : ℚ) (nd : Option ℚ) (p f : JsNum)
    (x : Booking) : (reschedUpd bid newDate nd p f x).instructorId = x.instructorId := by
  unfold reschedUpd
  split
  · dsimp only
    cases nd <;> split <;> rfl
  · rfl

/-- Field facts of `reschedUpd`: status preserved. -/
theorem reschedUpd_status (bid : ℕ) (newDate : ℚ) (nd : Option ℚ) (p f : JsNum)
    (x : Booking) : (reschedUpd bid newDate nd p f x).status = x.status := by
  unfold reschedUpd
  split
  · dsimp only
    cases nd <;> split <;> rfl
  · rfl

/-- Field facts of `reschedUpd`: the target booking moves to the new date. -/
theorem reschedUpd_date_self (bid : ℕ) (newDate : ℚ) (nd : Option ℚ) (p f : JsNum)
    (x : Booking) (hx : x.id = bid) :
    (reschedUpd bid newDate nd p f x).date = newDate := by
  unfold reschedUpd
  rw [if_pos hx]
  dsimp only
  cases nd <;> split <;> rfl

/-- Field facts of `reschedUpd`: other bookings are untouched. -/
theorem reschedUpd_other (bid : ℕ) (newDate : ℚ) (nd : Option ℚ) (p f : JsNum)
    (x : Booking) (hx : ¬ x.id = bid) :
    reschedUpd bid newDate nd p f x = x := by
  unfold reschedUpd
  rw [if_neg hx]

/-- `rescheduleBooking` preserves the structural invariant: the transaction
admits the move only when no active booking sits at the exact new date. -/
theorem stateInv_reschedule (s : DB) (caller bid : ℕ) (newDate : ℚ)
    (nd : Option ℚ) (now : ℚ) (h : StateInv s) :
    StateInv (rescheduleBooking s caller bid newDate nd now).1 := by
  obtain ⟨⟨hbound, hnd⟩, hex⟩ := h
  unfold rescheduleBooking
  split
  · exact ⟨⟨hbound, hnd⟩, hex⟩
  split
  · exact ⟨⟨hbound, hnd⟩, hex⟩
  rename_i b hfind
  split
  · exact ⟨⟨hbound, hnd⟩, hex⟩
  split
  · exact ⟨⟨hbound, hnd⟩, hex⟩
  dsimp only
  split
  · exact ⟨⟨hbound, hnd⟩, hex⟩
  rename_i hany
  split
  · exact ⟨⟨hbound, hnd⟩, hex⟩
  rename_i oldSlot hslot
  have hany' : ∀ x ∈ s.bookings,
      ¬(x.instructorId = b.instructorId ∧ x.date = newDate ∧ x.isActive = true) := by
    intro x hx hcontra
    exact hany (List.any_eq_true.mpr ⟨x, hx, by simpa using hcontra⟩)
  have hactiveeq : ∀ (p f : JsNum) (x : Booking),
      (reschedUpd bid newDate nd p f x).isActive = x.isActive := by
    intro p f x
    simp [Booking.isActive, reschedUpd_status]
  refine ⟨⟨?_, ?_⟩, ?_⟩
  · exact bound_map s.bookings s.nextId _ (reschedUpd_id bid newDate nd _ _) hbound
  · exact pairwise_ids_map s.bookings _ (reschedUpd_id bid newDate nd _ _) hnd
  · intro x₁ hx₁ x₂ hx₂ ha₁ ha₂ hi hd
    rcases List.mem_map.mp hx₁ with ⟨a₁, hm₁, rfl⟩
    rcases List.mem_map.mp hx₂ with ⟨a₂, hm₂, rfl⟩
    rw [reschedUpd_id, reschedUpd_id]
    rw [hactiveeq] at ha₁ ha₂
    rw [reschedUpd_instr, reschedUpd_instr] at hi
    by_cases h1 : a₁.id = bid <;> by_cases h2 : a₂.id = bid
    · rw [h1, h2]
    · exfalso
      have ha1b : a₁ = b := by
        have hfx : s.bookings.find? (fun y => y.id = bid) = some a₁ :=
          find?_unique_id s.bookings hnd hm₁ h1
        exact (Option.some.injEq _ _).mp (hfx.symm.trans hfind)
      rw [reschedUpd_date_self bid newDate nd _ _ a₁ h1] at hd
      rw [reschedUpd_other bid newDate nd _ _ a₂ h2] at hd
      refine hany' a₂ hm₂ ⟨?_, hd.symm, ha₂⟩
      rw [← hi, ha1b]
    · exfalso
      have ha2b : a₂ = b := by
        have hfx : s.bookings.find? (fun y => y.id = bid) = some a₂ :=
          find?_unique_id s.bookings hnd hm₂ h2
        exact (Option.some.injEq _ _).mp (hfx.symm.trans hfind)
      rw [reschedUpd_date_self bid newDate nd _ _ a₂ h2] at hd
      rw [reschedUpd_other bid newDate nd _ _ a₁ h1] at hd
      refine hany' a₁ hm₁ ⟨?_, hd, ha₁⟩
      rw [hi, ha2b]
    · rw [reschedUpd_other bid newDate nd _ _ a₁ h1,
          reschedUpd_other bid newDate nd _ _ a₂ h2] at hd
      exact hex a₁ hm₁ a₂ hm₂ ha₁ ha₂ hi hd

/-- Every reachable state satisfies the structural invariant. -/
theorem stateInv_reachable (s : DB) (h : Reachable s) : StateInv s := by
  induction h with
  | init => exact stateInv_init
  | step hr hs ih =>
    cases hs with
    | create r now => exact stateInv_create _ r now ih
    | confirm caller bid now => exact stateInv_confirm _ caller bid now ih
    | cancel caller ut bid now => exact stateInv_cancel _ caller ut bid now ih
    | complete caller bid d now => exact stateInv_complete _ caller bid d now ih
    | timeout bid now => exact stateInv_timeout _ bid now ih
    | reschedule caller bid newDate nd now =>
        exact stateInv_reschedule _ caller bid newDate nd now ih

/-! ### Money identity preservation -/

/-- The money identity survives a booking map preserving the three amount
fields. -/
theorem moneyInv_map (l : List Booking) (f : Booking → Booking)
    (hp : ∀ x, (f x).price = x.price)
    (hd : ∀ x, (f x).depositAmount = x.depositAmount)
    (hr : ∀ x, (f x).remainingAmount = x.remainingAmount)
    (h : ∀ b ∈ l, b.price = some (b.depositAmount + b.remainingAmount)) :
    ∀ b ∈ l.map f, b.price = some (b.depositAmount + b.remainingAmount) := by
  intro b hb
  rcases List.mem_map.mp hb with ⟨a, ha, rfl⟩
  rw [hp, hd, hr]
  exact h a ha

/-- `createBooking` preserves the money identity: the new booking satisfies
`deposit + remaining = price` exactly. -/
theorem moneyInv_create (s : DB) (r : CreateReq) (now : ℚ) (h : MoneyInv s) :
    MoneyInv (createBooking s r now).1 := by
  unfold createBooking
  split
  · exact h
  split
  · exact h
  split
  · exact h
  split
  · exact h
  intro b hb
  rcases List.mem_cons.mp hb with rfl | hb'
  · simp only [newBookingOf]
    congr 1
    ring
  · exact h b hb'

/-- `confirmBooking` preserves the money identity. -/
theorem moneyInv_confirm (s : DB) (caller bid : ℕ) (now : ℚ) (h : MoneyInv s) :
    MoneyInv (confirmBooking s caller bid now).1 := by
  unfold confirmBooking
  split
  · exact h
  split
  · exact h
  split
  · exact h
  split
  · exact h
  refine moneyInv_map s.bookings _ ?_ ?_ ?_ h <;>
    · intro x; unfold confirmUpd; split <;> rfl

/-- `cancelBooking` preserves the money identity. -/
theorem moneyInv_cancel (s : DB) (caller : ℕ) (ut : UserType) (bid : ℕ) (now : ℚ)
    (h : MoneyInv s) : MoneyInv (cancelBooking s caller ut bid now).1 := by
  have hmain : ∀ pol, MoneyInv { s with bookings := s.bookings.map (cancelUpd bid ut pol) } := by
    intro pol
    refine moneyInv_map s.bookings _ ?_ ?_ ?_ h <;>
      · intro x; unfold cancelUpd; split <;> rfl
  unfold cancelBooking
  split
  · exact h
  split
  · exact h
  split
  · exact h
  split
  · exact h
  split
  · exact h
  dsimp only
  repeat' split
  all_goals first
    | exact h
    | exact hmain _
    | (unfold cancelSuccessState
       dsimp only
       repeat' split
       all_goals exact hmain _)

/-- `markLessonCompleted` preserves the money identity. -/
theorem moneyInv_complete (s : DB) (caller bid : ℕ) (d now : ℚ) (h : MoneyInv s) :
    MoneyInv (markLessonCompleted s caller bid d now).1 := by
  unfold markLessonCompleted
  split
  · exact h
  split
  · exact h
  split
  · exact h
  split
  · exact h
  split
  · exact h
  refine moneyInv_map s.bookings _ ?_ ?_ ?_ h <;>
    · intro x; unfold completeUpd; split <;> rfl

/-- `processBookingTimeout` preserves the money identity. -/
theorem moneyInv_timeout (s : DB) (bid : ℕ) (now : ℚ) (h : MoneyInv s) :
    MoneyInv (processBookingTimeout s bid now) := by
  unfold processBookingTimeout timeoutWrites
  split
  · exact h
  split
  · exact h
  split
  · refine moneyInv_map s.bookings _ ?_ ?_ ?_ h <;>
      · intro x; unfold statusCancelUpd; split <;> rfl
  · exact h

/-- `rescheduleBooking` without a duration change preserves the money
identity (the date move and fee fields leave price, deposit and remainder
untouched). -/
theorem moneyInv_reschedule_same_duration (s : DB) (caller bid : ℕ) (newDate now : ℚ)
    (h : MoneyInv s) : MoneyInv (rescheduleBooking s caller bid newDate none now).1 := by
  unfold rescheduleBooking
  split
  · exact h
  split
  · exact h
  split
  · exact h
  split
  · exact h
  dsimp only
  split
  · exact h
  split
  · exact h
  refine moneyInv_map s.bookings _ ?_ ?_ ?_ h <;>
    · intro x
      unfold reschedUpd
      dsimp only
      repeat' split
      all_goals rfl

/-! ### Claim theorems -/

/-- C5: the pure cancellation policy returns exactly the tabulated values:
requester with hoursUntilStart < 24 gets refundPercent 1.0 and penalty 0;
requester with hoursUntilStart ≥ 24 gets refundPercent 0.5 and penalty
0.5×price; provider with hoursUntilStart < 12 gets refundPercent 1.0 and
penalty 1.0×price; provider with hoursUntilStart ≥ 12 gets refundPercent
1.0 and penalty 0. -/
theorem c5_policy_table : ∀ (h price : ℚ),
    (h < 24 →
      (calculateCancellationPolicy UserType.student h (some price)).refundPercentage = 1 ∧
      (calculateCancellationPolicy UserType.student h (some price)).penaltyAmount = some 0) ∧
    (24 ≤ h →
      (calculateCancellationPolicy UserType.student h (some price)).refundPercentage = 1/2 ∧
      (calculateCancellationPolicy UserType.student h (some price)).penaltyAmount
        = some (price * (1/2))) ∧
    (h < 12 →
      (calculateCancellationPolicy UserType.instructor h (some price)).refundPercentage = 1 ∧
      (calculateCancellationPolicy UserType.instructor h (some price)).penaltyAmount
        = some price) ∧
    (12 ≤ h →
      (calculateCancellationPolicy UserType.instructor h (some price)).refundPercentage = 1 ∧
      (calculateCancellationPolicy UserType.instructor h (some price)).penaltyAmount
        = some 0) := by
  intro h price
  refine ⟨?_, ?_, ?_, ?_⟩
  · intro hh
    simp [calculateCancellationPolicy, hh]
  · intro hh
    have hlt : ¬ h < 24 := not_lt.mpr hh
    simp [calculateCancellationPolicy, hlt, jsMul]
  · intro hh
    simp [calculateCancellationPolicy, hh]
  · intro hh
    have hlt : ¬ h < 12 := not_lt.mpr hh
    simp [calculateCancellationPolicy, hlt]

/-- C5 witness: the table at the spec examples, hours 10/30/5/20 with price
140. -/
theorem c5_policy_table_witness :
    ((calculateCancellationPolicy UserType.student 10 (some 140)).refundPercentage = 1 ∧
      (calculateCancellationPolicy UserType.student 10 (some 140)).penaltyAmount = some 0) ∧
    ((calculateCancellationPolicy UserType.student 30 (some 140)).refundPercentage = 1/2 ∧
      (calculateCancellationPolicy UserType.student 30 (some 140)).penaltyAmount = some 70) ∧
    ((calculateCancellationPolicy UserType.instructor 5 (some 140)).refundPercentage = 1 ∧
      (calculateCancellationPolicy UserType.instructor 5 (some 140)).penaltyAmount = some 140) ∧
    ((calculateCancellationPolicy UserType.instructor 20 (some 140)).refundPercentage = 1 ∧
      (calculateCancellationPolicy UserType.instructor 20 (some 140)).penaltyAmount = some 0) := by
  refine ⟨(c5_policy_table 10 140).1 (by norm_num), ?_,
    (c5_policy_table 5 140).2.2.1 (by norm_num),
    (c5_policy_table 20 140).2.2.2 (by norm_num)⟩
  have h := (c5_policy_table 30 140).2.1 (by norm_num)
  refine ⟨h.1, ?_⟩
  rw [h.2]
  norm_num

/-- C10: a ValidationTask timing out at attempt 0 is routed directly to
RequiresManualReview with no retry, while a transient (5xx/network) error
increments the attempt counter and retries, reaching RequiresManualReview
only after 3 attempts in total. -/
theorem c10_validation_retry : ∀ (bid : ℕ),
    validationStep ⟨bid, 0, ValidationState.pending⟩ CertifyOutcome.timeout
      = ⟨bid, 0, ValidationState.requiresManualReview⟩ ∧
    validationStep ⟨bid, 0, ValidationState.pending⟩ CertifyOutcome.transientError
      = ⟨bid, 1, ValidationState.pending⟩ ∧
    validationStep ⟨bid, 1, ValidationState.pending⟩ CertifyOutcome.transientError
      = ⟨bid, 2, ValidationState.pending⟩ ∧
    validationStep ⟨bid, 2, ValidationState.pending⟩ CertifyOutcome.transientError
      = ⟨bid, 3, ValidationState.requiresManualReview⟩ := by
  intro bid
  refine ⟨rfl, ?_, ?_, ?_⟩ <;> simp [validationStep]

/-- C4 counterexample: the settlement code applies a flat 15% fee; the
claimed 10% tier for package hours ≥ 20 does not exist, so at totalAmount
100 with 20 package hours the code charges 15, not the claimed 10. -/
theorem c4_fee_tier_counterexample :
    platformFeeOf 100 = 15 ∧ specPlatformFee 100 20 = 10 ∧
      platformFeeOf 100 ≠ specPlatformFee 100 20 := by
  refine ⟨?_, ?_, ?_⟩ <;> with_unfolding_all decide

/-- After `calSet` wrote key `k`, looking `k` up finds the written slot
(auxiliary, replace case). -/
theorem find?_map_calSet (cal : List ((ℕ × ℤ) × CalendarSlot)) (k : ℕ × ℤ)
    (v : CalendarSlot) :
    (cal.map (fun e => if e.1 = k then (k, v) else e)).find? (fun e => e.1 = k)
      = (cal.find? (fun e => e.1 = k)).map (fun _ => (k, v)) := by
  induction cal with
  | nil => rfl
  | cons e t ih =>
    by_cases he : e.1 = k
    · simp [List.find?, he]
    · simp only [List.map_cons, if_neg he, List.find?]
      rw [decide_eq_false he]
      exact ih

/-- After `calSet` wrote key `k`, looking `k` up finds the written slot. -/
theorem find?_calSet (cal : List ((ℕ × ℤ) × CalendarSlot)) (k : ℕ × ℤ)
    (v : CalendarSlot) (hany : cal.any (fun e => e.1 = k) = true) :
    (calSet cal k v).find? (fun e => e.1 = k) = some (k, v) := by
  unfold calSet
  rw [if_pos hany, find?_map_calSet]
  cases hf : cal.find? (fun e => e.1 = k) with
  | none =>
    exfalso
    rcases List.any_eq_true.mp hany with ⟨e, he, hek⟩
    exact List.find?_eq_none.mp hf e he hek
  | some w => rfl

/-- After `calSet` wrote key `k`, looking `k` up finds the written slot,
insert case included. -/
theorem find?_calSet_all (cal : List ((ℕ × ℤ) × CalendarSlot)) (k : ℕ × ℤ)
    (v : CalendarSlot) :
    (calSet cal k v).find? (fun e => e.1 = k) = some (k, v) := by
  by_cases hany : cal.any (fun e => e.1 = k) = true
  · exact find?_calSet cal k v hany
  · unfold calSet
    rw [if_neg hany]
    simp [List.find?]

/-- C1 (amended): every reachable state has at most one active booking per
instructor and exact start time, and after a `createBooking` succeeds, any
further valid create request aimed at the same instructor and the same
calendar slot key is rejected with Conflict and persists nothing. -/
theorem c1_slot_exclusivity_amended :
    (∀ s, Reachable s → ExactSlotInvariant s) ∧
    (∀ (s : DB) (r : CreateReq) (now : ℚ) (s' : DB) (bid : ℕ),
      createBooking s r now = (s', OpResult.ok bid) →
      ∀ (r₂ : CreateReq) (now₂ : ℚ), r₂.instructorId = r.instructorId →
        formatDateKey r₂.date = formatDateKey r.date →
        ¬(r₂.duration < 1 ∨ 4 < r₂.duration) → ¬ r₂.date ≤ now₂ →
        createBooking s' r₂ now₂ = (s', OpResult.err ErrCode.conflict)) := by
  constructor
  · intro s h
    exact (stateInv_reachable s h).2
  · intro s r now s' bid hcr r₂ now₂ hinstr hkey hdur hfut
    unfold createBooking at hcr
    split at hcr
    · simp at hcr
    split at hcr
    · simp at hcr
    split at hcr
    · simp at hcr
    split at hcr
    · simp at hcr
    have hs' : createSuccessState s r now = s' := congrArg Prod.fst hcr
    subst hs'
    unfold createBooking
    rw [if_neg hdur, if_neg hfut]
    by_cases hc3 : ((createSuccessState s r now).bookings.any (fun b =>
        b.instructorId = r₂.instructorId ∧ b.date = r₂.date ∧ b.isActive)) = true
    · rw [if_pos hc3]
    · rw [if_neg hc3]
      have hcal : (createSuccessState s r now).calSlot
          (r₂.instructorId, formatDateKey r₂.date)
            = some ⟨r.date, true, some s.nextId⟩ := by
        rw [hinstr, hkey]
        show ((calSet s.calendar (r.instructorId, formatDateKey r.date)
          ⟨r.date, true, some s.nextId⟩).find?
            (fun e => e.1 = (r.instructorId, formatDateKey r.date))).map
              (fun e => e.2) = _
        rw [find?_calSet_all]
        rfl
      have hcond : (((createSuccessState s r now).calSlot
          (r₂.instructorId, formatDateKey r₂.date)).map
            (fun c => c.reserved)).getD false = true := by
        rw [hcal]
        rfl
      rw [if_pos hcond]

/-- C1 witness: two creates aimed at hour slot 10 of instructor 2, the
second at 10.5; the first succeeds, the second is rejected with Conflict
and leaves the state unchanged. -/
theorem c1_slot_exclusivity_witness :
    createBooking (createBooking DB.init ⟨1, 2, 10, 2, 50⟩ 0).1
        ⟨3, 2, 21/2, 2, 50⟩ 0
      = ((createBooking DB.init ⟨1, 2, 10, 2, 50⟩ 0).1,
         OpResult.err ErrCode.conflict) := by
  refine c1_slot_exclusivity_amended.2 DB.init ⟨1, 2, 10, 2, 50⟩ 0
    (createBooking DB.init ⟨1, 2, 10, 2, 50⟩ 0).1 0 ?_ ⟨3, 2, 21/2, 2, 50⟩ 0 ?_ ?_ ?_ ?_
  · with_unfolding_all decide
  · with_unfolding_all decide
  · with_unfolding_all decide
  · with_unfolding_all decide
  · with_unfolding_all decide

/-- The reachable state of the C1 counterexample: two bookings created at
hours 10 and 20 for instructor 2, the second rescheduled to 10.5. -/
def c1ExState : DB :=
  (rescheduleBooking
    (createBooking (createBooking DB.init ⟨1, 2, 10, 2, 50⟩ 0).1
      ⟨3, 2, 20, 2, 50⟩ 0).1
    3 1 (21/2) none 0).1

/-- C1 counterexample: the claimed invariant — at most one active booking
per (providerId, slotKey) in every reachable state — is false:
`rescheduleBooking` checks only the exact new date, not the hour-truncated
calendar key, so rescheduling to 10.5 while hour slot 10 is occupied leaves
two active bookings on slot (2, 10). -/
theorem c1_hour_slot_counterexample :
    Reachable c1ExState ∧ ¬ SlotKeyInvariant c1ExState := by
  constructor
  · exact Reachable.step
      (Reachable.step (Reachable.step Reachable.init
        (Step.create DB.init ⟨1, 2, 10, 2, 50⟩ 0))
        (Step.create (createBooking DB.init ⟨1, 2, 10, 2, 50⟩ 0).1 ⟨3, 2, 20, 2, 50⟩ 0))
      (Step.reschedule (createBooking (createBooking DB.init ⟨1, 2, 10, 2, 50⟩ 0).1
        ⟨3, 2, 20, 2, 50⟩ 0).1 3 1 (21/2) none 0)
  · unfold SlotKeyInvariant
    with_unfolding_all decide

/-- C2 (amended): `depositAmount + remainingAmount == price` holds for
every stored booking after create and is preserved by confirm, cancel,
complete, timeout-expire and reschedule without a duration change. -/
theorem c2_money_identity_amended :
    (∀ (s : DB) (r : CreateReq) (now : ℚ),
      MoneyInv s → MoneyInv (createBooking s r now).1) ∧
    (∀ (s : DB) (caller bid : ℕ) (now : ℚ),
      MoneyInv s → MoneyInv (confirmBooking s caller bid now).1) ∧
    (∀ (s : DB) (caller : ℕ) (ut : UserType) (bid : ℕ) (now : ℚ),
      MoneyInv s → MoneyInv (cancelBooking s caller ut bid now).1) ∧
    (∀ (s : DB) (caller bid : ℕ) (d now : ℚ),
      MoneyInv s → MoneyInv (markLessonCompleted s caller bid d now).1) ∧
    (∀ (s : DB) (bid : ℕ) (now : ℚ),
      MoneyInv s → MoneyInv (processBookingTimeout s bid now)) ∧
    (∀ (s : DB) (caller bid : ℕ) (newDate now : ℚ),
      MoneyInv s → MoneyInv (rescheduleBooking s caller bid newDate none now).1) :=
  ⟨moneyInv_create, moneyInv_confirm, moneyInv_cancel, moneyInv_complete,
    moneyInv_timeout, moneyInv_reschedule_same_duration⟩

/-- C2 witness: creating a booking (price 100) from the empty store yields
a store satisfying the money identity. -/
theorem c2_money_identity_witness :
    MoneyInv (createBooking DB.init ⟨1, 2, 10, 2, 50⟩ 0).1 := by
  refine c2_money_identity_amended.1 DB.init ⟨1, 2, 10, 2, 50⟩ 0 ?_
  intro b hb
  cases hb

/-- The reachable state of the C2 counterexample: a booking of price 100
(deposit 20, remaining 80) rescheduled with a new duration. -/
def c2ExState : DB :=
  (rescheduleBooking (createBooking DB.init ⟨1, 2, 10, 2, 50⟩ 0).1 1 0 30 (some 4) 0).1

/-- C2 counterexample: a reschedule that supplies a new duration overwrites
`price` (with `booking.pricePerHour * newDuration`, which is NaN because
bookings never store `pricePerHour`) without recomputing `depositAmount` or
`remainingAmount`, so `depositAmount + remainingAmount == price` fails in a
reachable state. -/
theorem c2_money_identity_counterexample :
    Reachable c2ExState ∧ ¬ MoneyInv c2ExState := by
  constructor
  · exact Reachable.step
      (Reachable.step Reachable.init (Step.create DB.init ⟨1, 2, 10, 2, 50⟩ 0))
      (Step.reschedule (createBooking DB.init ⟨1, 2, 10, 2, 50⟩ 0).1 1 0 30 (some 4) 0)
  · unfold MoneyInv
    with_unfolding_all decide

/-- `reschedUpd` without a new duration leaves a booking's price as it is
(the fee is not folded into it). -/
theorem reschedUpd_price_none (bid : ℕ) (newDate : ℚ) (p f : JsNum) (x : Booking) :
    (reschedUpd bid newDate none p f x).price = x.price := by
  unfold reschedUpd
  dsimp only
  repeat' split
  all_goals rfl

/-- Case analysis of `rescheduleBooking`: either it fails with the state
unchanged, or the found booking and the found old calendar slot determine
the updated state, the returned fee and the returned count. -/
theorem rescheduleBooking_cases (s : DB) (caller bid : ℕ) (newDate : ℚ)
    (nd : Option ℚ) (now : ℚ) :
    (∃ e, rescheduleBooking s caller bid newDate nd now = (s, RescheduleResult.err e)) ∨
    (∃ b oldSlot, s.booking bid = some b ∧
      s.calSlot (b.instructorId, formatDateKey b.date) = some oldSlot ∧
      rescheduleBooking s caller bid newDate nd now =
        ({ s with
            bookings := s.bookings.map (reschedUpd bid newDate nd
              (jsMul b.pricePerHour (some (nd.getD 0)))
              (if 0 < b.rescheduleCount then jsRound (jsMul b.price (some (1/10)))
               else some 0))
            calendar := calSet (calSet s.calendar (b.instructorId, formatDateKey b.date)
                { oldSlot with reserved := false, bookingId := none })
              (b.instructorId, formatDateKey newDate) ⟨newDate, true, some bid⟩ },
         RescheduleResult.ok
           (if 0 < b.rescheduleCount then jsRound (jsMul b.price (some (1/10)))
            else some 0)
           (b.rescheduleCount + 1))) := by
  unfold rescheduleBooking
  split
  · exact Or.inl ⟨_, rfl⟩
  split
  · exact Or.inl ⟨_, rfl⟩
  rename_i b hfind
  split
  · exact Or.inl ⟨_, rfl⟩
  split
  · exact Or.inl ⟨_, rfl⟩
  dsimp only
  split
  · exact Or.inl ⟨_, rfl⟩
  split
  · exact Or.inl ⟨_, rfl⟩
  rename_i oldSlot hslot
  exact Or.inr ⟨b, oldSlot, hfind, hslot, rfl⟩

/-- C9 (amended): a successful reschedule returns
`rescheduleCount + 1` and a fee of 0 when it is the booking's first
reschedule, else `Math.round(0.1 * price)` computed from the price
currently stored on the booking — not from the original price — and when
no new duration is supplied the stored price itself is unchanged (the fee
is not cumulative). -/
theorem c9_reschedule_fee_amended :
    ∀ (s : DB) (caller bid : ℕ) (newDate : ℚ) (nd : Option ℚ) (now : ℚ) (b : Booking)
      (fee : JsNum) (cnt : ℕ),
      s.booking bid = some b →
      (rescheduleBooking s caller bid newDate nd now).2 = RescheduleResult.ok fee cnt →
      cnt = b.rescheduleCount + 1 ∧
      fee = (if 0 < b.rescheduleCount then jsRound (jsMul b.price (some (1/10)))
             else some 0) ∧
      (nd = none →
        ((rescheduleBooking s caller bid newDate nd now).1.booking bid).map
          (fun x => x.price) = some b.price) := by
  intro s caller bid newDate nd now b fee cnt hfind h2
  rcases rescheduleBooking_cases s caller bid newDate nd now with ⟨e, he⟩ | ⟨b', oldSlot, hfind', hslot, hres⟩
  · rw [he] at h2
    simp at h2
  · have hb : b' = b := by
      have := hfind'.symm.trans hfind
      exact (Option.some.injEq _ _).mp this
    subst hb
    rw [hres] at h2
    have hfee : (if 0 < b'.rescheduleCount then jsRound (jsMul b'.price (some (1/10)))
        else some 0) = fee ∧ b'.rescheduleCount + 1 = cnt := by
      have h2' : RescheduleResult.ok
          (if 0 < b'.rescheduleCount then jsRound (jsMul b'.price (some (1/10)))
           else some 0) (b'.rescheduleCount + 1) = RescheduleResult.ok fee cnt := h2
      exact ⟨(RescheduleResult.ok.injEq _ _ _ _).mp h2' |>.1,
        (RescheduleResult.ok.injEq _ _ _ _).mp h2' |>.2⟩
    refine ⟨hfee.2.symm, hfee.1.symm, ?_⟩
    intro hnd
    subst hnd
    rw [hres]
    show (((s.bookings.map (reschedUpd bid newDate none _ _)).find?
      (fun y => y.id = bid)).map (fun x => x.price)) = some b'.price
    rw [find?_map_comm (reschedUpd bid newDate none _ _) (fun y => y.id = bid)
      (by intro a; simp [reschedUpd_id]) s.bookings]
    rw [show s.bookings.find? (fun y => y.id = bid) = some b' from hfind']
    show some (reschedUpd bid newDate none _ _ b').price = some b'.price
    rw [reschedUpd_price_none]

/-- C9 witness: the first reschedule of a fresh booking returns fee 0 and
count 1, with the stored price unchanged. -/
theorem c9_reschedule_fee_witness :
    (1 : ℕ) = (0 : ℕ) + 1 ∧
    (some 0 : JsNum) = (if (0:ℕ) < 0 then jsRound (jsMul (some 100) (some (1/10)))
      else some 0) ∧
    (((rescheduleBooking (createBooking DB.init ⟨1, 2, 10, 2, 50⟩ 0).1
        1 0 30 none 0).1.booking 0).map (fun x => x.price) = some (some 100)) := by
  have h := c9_reschedule_fee_amended (createBooking DB.init ⟨1, 2, 10, 2, 50⟩ 0).1
    1 0 30 none 0 (newBookingOf DB.init ⟨1, 2, 10, 2, 50⟩ 0)
    (some 0) 1 (by with_unfolding_all decide) (by with_unfolding_all decide)
  refine ⟨?_, ?_, ?_⟩
  · have := h.1
    revert this
    with_unfolding_all decide
  · have := h.2.1
    revert this
    with_unfolding_all decide
  · have := h.2.2 rfl
    revert this
    with_unfolding_all decide

/-- The state of the C9 counterexample: a booking of price 100 whose first
reschedule supplied a new duration (overwriting the stored price), followed
by a second reschedule. -/
def c9ExState : DB :=
  (rescheduleBooking (createBooking DB.init ⟨1, 2, 10, 2, 50⟩ 0).1 1 0 30 (some 4) 0).1

/-- C9 counterexample: after an intervening duration-changing reschedule,
the second reschedule does NOT charge 10% of the original price (10): the
fee is `Math.round(0.1 * price)` over the now-NaN stored price, so it is
NaN, and the `fee > 0` charge guard does not fire. -/
theorem c9_reschedule_fee_counterexample :
    Reachable c9ExState ∧
    (rescheduleBooking c9ExState 1 0 40 none 0).2 = RescheduleResult.ok none 2 ∧
    (none : JsNum) ≠ some 10 ∧ jsGtZero none = false := by
  refine ⟨?_, ?_, ?_, rfl⟩
  · exact Reachable.step
      (Reachable.step Reachable.init (Step.create DB.init ⟨1, 2, 10, 2, 50⟩ 0))
      (Step.reschedule (createBooking DB.init ⟨1, 2, 10, 2, 50⟩ 0).1 1 0 30 (some 4) 0)
  · with_unfolding_all decide
  · with_unfolding_all decide

/-- Case analysis of `confirmBooking`: the four rejections and the success,
with the guard facts of each branch. -/
theorem confirmBooking_cases (s : DB) (caller bid : ℕ) (now : ℚ) :
    (s.booking bid = none ∧
      confirmBooking s caller bid now = (s, OpResult.err ErrCode.notFound)) ∨
    (∃ b, s.booking bid = some b ∧ b.instructorId ≠ caller ∧
      confirmBooking s caller bid now = (s, OpResult.err ErrCode.unauthorized)) ∨
    (∃ b, s.booking bid = some b ∧ b.instructorId = caller ∧
      b.status ≠ BookingStatus.pendente ∧
      confirmBooking s caller bid now = (s, OpResult.err ErrCode.validation)) ∨
    (∃ b, s.booking bid = some b ∧ b.instructorId = caller ∧
      b.status = BookingStatus.pendente ∧ 2 < now - b.createdAt ∧
      confirmBooking s caller bid now = (s, OpResult.err ErrCode.validation)) ∨
    (∃ b, s.booking bid = some b ∧ b.instructorId = caller ∧
      b.status = BookingStatus.pendente ∧ now - b.createdAt ≤ 2 ∧
      confirmBooking s caller bid now =
        ({ s with bookings := s.bookings.map (confirmUpd bid),
                  timeouts := s.timeouts.map (confirmTimeoutUpd bid) },
         OpResult.ok bid)) := by
  unfold confirmBooking
  split
  · rename_i hnone
    exact Or.inl ⟨hnone, rfl⟩
  rename_i b hfind
  split
  · rename_i hown
    exact Or.inr (Or.inl ⟨b, hfind, hown, rfl⟩)
  rename_i hown
  split
  · rename_i hst
    exact Or.inr (Or.inr (Or.inl ⟨b, hfind, not_ne_iff.mp hown, hst, rfl⟩))
  rename_i hst
  split
  · rename_i hwin
    exact Or.inr (Or.inr (Or.inr (Or.inl
      ⟨b, hfind, not_ne_iff.mp hown, not_ne_iff.mp hst, hwin, rfl⟩)))
  rename_i hwin
  exact Or.inr (Or.inr (Or.inr (Or.inr
    ⟨b, hfind, not_ne_iff.mp hown, not_ne_iff.mp hst, not_lt.mp hwin, rfl⟩)))

/-- C7: `confirmBooking` succeeds iff the caller is the booking's
instructor, the status is still `pendente` and at most 2 hours have passed
since creation; on success the booking is `confirmada`, every timeout
record of the booking is marked processed, and any later confirm on the
booking is rejected. -/
theorem c7_confirm_guard : ∀ (s : DB) (caller bid : ℕ) (now : ℚ) (b : Booking),
    s.booking bid = some b →
    (((confirmBooking s caller bid now).2 = OpResult.ok bid) ↔
      (caller = b.instructorId ∧ b.status = BookingStatus.pendente ∧
        now - b.createdAt ≤ 2)) ∧
    ((confirmBooking s caller bid now).2 = OpResult.ok bid →
      ((confirmBooking s caller bid now).1.booking bid
          = some { b with status := BookingStatus.confirmada } ∧
       (∀ t ∈ (confirmBooking s caller bid now).1.timeouts,
          t.bookingId = bid → t.processed = true) ∧
       (∀ (caller₂ : ℕ) (now₂ : ℚ),
          (confirmBooking (confirmBooking s caller bid now).1 caller₂ bid now₂).2
            ≠ OpResult.ok bid))) := by
  intro s caller bid now b hfind
  have hbid : b.id = bid := by
    have := List.find?_some hfind
    exact of_decide_eq_true this
  rcases confirmBooking_cases s caller bid now with
    ⟨hnone, _⟩ | ⟨b', hf, hown, heq⟩ | ⟨b', hf, hown, hst, heq⟩ |
    ⟨b', hf, hown, hst, hwin, heq⟩ | ⟨b', hf, hown, hst, hwin, heq⟩
  · rw [hnone] at hfind
    cases hfind
  all_goals
    have hb : b = b' := (Option.some.injEq _ _).mp (hfind.symm.trans hf)
  all_goals subst hb
  · rw [heq]
    constructor
    · constructor
      · intro h
        cases h
      · intro h
        exact absurd h.1.symm hown
    · intro h
      cases h
  · rw [heq]
    constructor
    · constructor
      · intro h
        cases h
      · intro h
        exact absurd h.2.1 hst
    · intro h
      cases h
  · rw [heq]
    constructor
    · constructor
      · intro h
        cases h
      · intro h
        exact absurd h.2.2 (not_le.mpr hwin)
    · intro h
      cases h
  · rw [heq]
    have hpost : ((s.bookings.map (confirmUpd bid)).find? (fun y => y.id = bid))
        = some { b with status := BookingStatus.confirmada } := by
      rw [find?_map_comm (confirmUpd bid) (fun y => y.id = bid)
        (by intro a; unfold confirmUpd; split <;> simp) s.bookings]
      rw [show s.bookings.find? (fun y => y.id = bid) = some b from hfind]
      show some (confirmUpd bid b) = _
      unfold confirmUpd
      rw [if_pos hbid]
    refine ⟨iff_of_true rfl ⟨hown.symm, hst, hwin⟩, ?_⟩
    intro _
    refine ⟨hpost, ?_, ?_⟩
    · intro t ht htb
      rcases List.mem_map.mp ht with ⟨t₀, ht₀, rfl⟩
      by_cases hc : t₀.bookingId = bid ∧ t₀.processed = false
      · simp [confirmTimeoutUpd, hc]
      · unfold confirmTimeoutUpd at htb ⊢
        rw [if_neg hc] at htb ⊢
        rcases not_and_or.mp hc with hc1 | hc2
        · exact absurd htb hc1
        · exact Bool.not_eq_false _ |>.mp hc2
    · intro caller₂ now₂
      show (confirmBooking _ caller₂ bid now₂).2 ≠ OpResult.ok bid
      rcases confirmBooking_cases
          ({ s with bookings := s.bookings.map (confirmUpd bid),
                    timeouts := s.timeouts.map (confirmTimeoutUpd bid) })
          caller₂ bid now₂ with
        ⟨hn2, he2⟩ | ⟨c, hf2, _, he2⟩ | ⟨c, hf2, _, _, he2⟩ |
        ⟨c, hf2, _, hst2, _, he2⟩ | ⟨c, hf2, _, hst2, _, he2⟩
      · rw [he2]
        intro h
        cases h
      · rw [he2]
        intro h
        cases h
      · rw [he2]
        intro h
        cases h
      all_goals
        have hc : c = { b with status := BookingStatus.confirmada } :=
          (Option.some.injEq _ _).mp (hf2.symm.trans hpost)
      all_goals subst hc
      all_goals simp at hst2

/-- C7 witness: the instructor confirms a fresh booking within the window;
the success matches the guard, and the theorem's iff applied at these
concrete inputs yields the accepted result. -/
theorem c7_confirm_guard_witness :
    (confirmBooking (createBooking DB.init ⟨1, 2, 10, 2, 50⟩ 0).1 2 0 1).2
      = OpResult.ok 0 :=
  (c7_confirm_guard (createBooking DB.init ⟨1, 2, 10, 2, 50⟩ 0).1 2 0 1
    (newBookingOf DB.init ⟨1, 2, 10, 2, 50⟩ 0)
    (by with_unfolding_all decide)).1.mpr (by with_unfolding_all decide)

/-- The reachable state of the C8 evaluation: a booking created and then
cancelled by the student. -/
def c8State : DB :=
  (cancelBooking (createBooking DB.init ⟨1, 2, 10, 2, 50⟩ 0).1 1 UserType.student 0 1).1

/-- C8: `markLessonCompleted` accepts a booking that is already Cancelled
(it only rejects status `concluida`), marking it Completed — the claim
says completion requires status Confirmed and that Cancelled is absorbing,
so this evaluation exhibits the code bug at a concrete reachable state. -/
theorem c8_complete_from_cancelled :
    Reachable c8State ∧
    ((c8State.booking 0).map (fun b => b.status) = some BookingStatus.cancelada) ∧
    (markLessonCompleted c8State 2 0 2 11).2 = OpResult.ok 0 ∧
    (((markLessonCompleted c8State 2 0 2 11).1.booking 0).map (fun b => b.status)
      = some BookingStatus.concluida) := by
  refine ⟨?_, ?_, ?_, ?_⟩
  · exact Reachable.step
      (Reachable.step Reachable.init (Step.create DB.init ⟨1, 2, 10, 2, 50⟩ 0))
      (Step.cancel (createBooking DB.init ⟨1, 2, 10, 2, 50⟩ 0).1 1 UserType.student 0 1)
  · with_unfolding_all decide
  · with_unfolding_all decide
  · with_unfolding_all decide

/-- Case analysis of `cancelBooking`: any rejection, or the found booking
and calendar slot determining the success state. -/
theorem cancelBooking_cases (s : DB) (caller : ℕ) (ut : UserType) (bid : ℕ) (now : ℚ) :
    (∃ e, (cancelBooking s caller ut bid now).2 = OpResult.err e) ∨
    (∃ b slot, s.booking bid = some b ∧
      s.calSlot (b.instructorId, formatDateKey b.date) = some slot ∧
      cancelBooking s caller ut bid now =
        (cancelSuccessState s b bid ut now slot, OpResult.ok bid)) := by
  unfold cancelBooking
  split
  · exact Or.inl ⟨_, rfl⟩
  rename_i b hfind
  split
  · exact Or.inl ⟨_, rfl⟩
  split
  · exact Or.inl ⟨_, rfl⟩
  split
  · exact Or.inl ⟨_, rfl⟩
  split
  · exact Or.inl ⟨_, rfl⟩
  dsimp only
  split
  · exact Or.inl ⟨_, rfl⟩
  rename_i slot hslot
  exact Or.inr ⟨b, slot, hfind, hslot, rfl⟩

/-- A student cancellation never touches the wallets. -/
theorem cancelSuccessState_wallets_student (s : DB) (b : Booking) (bid : ℕ) (now : ℚ)
    (slot : CalendarSlot) :
    (cancelSuccessState s b bid UserType.student now slot).wallets = s.wallets := by
  unfold cancelSuccessState
  dsimp only
  repeat' split
  all_goals first
    | rfl
    | simp_all

/-- The bookings list written by a successful cancellation. -/
theorem cancelSuccessState_bookings (s : DB) (b : Booking) (bid : ℕ) (ut : UserType)
    (now : ℚ) (slot : CalendarSlot) :
    (cancelSuccessState s b bid ut now slot).bookings =
      s.bookings.map (cancelUpd bid ut
        (calculateCancellationPolicy ut (b.date - now) b.price)) := by
  unfold cancelSuccessState
  dsimp only
  repeat' split
  all_goals rfl

/-- The refunds list written by a successful cancellation when the rounded
refund is positive. -/
theorem cancelSuccessState_refunds (s : DB) (b : Booking) (bid : ℕ) (ut : UserType)
    (now : ℚ) (slot : CalendarSlot)
    (h : jsGtZero (jsRound (jsMul
      (some (calculateCancellationPolicy ut (b.date - now) b.price).refundPercentage)
      b.price)) = true) :
    (cancelSuccessState s b bid ut now slot).refunds =
      { bookingId := bid,
        amount := jsRound (jsMul
          (some (calculateCancellationPolicy ut (b.date - now) b.price).refundPercentage)
          b.price),
        reason := (calculateCancellationPolicy ut (b.date - now) b.price).reason }
        :: s.refunds := by
  unfold cancelSuccessState
  dsimp only
  rw [if_pos h]
  repeat' split
  all_goals rfl

/-- C6 (amended): when the requester cancels with hoursUntilStart ≥ 24 the
refund is 50% and a penalty of 0.5×price is recorded on the booking — but
the provider wallet is NOT credited: the wallets are unchanged
(`applyInstructorPenalty` runs only for instructor cancellations, and it
debits). -/
theorem c6_requester_late_cancel_amended :
    ∀ (s : DB) (caller bid : ℕ) (now : ℚ) (b : Booking),
      s.booking bid = some b →
      24 ≤ b.date - now →
      (cancelBooking s caller UserType.student bid now).2 = OpResult.ok bid →
      ((cancelBooking s caller UserType.student bid now).1.wallets = s.wallets ∧
       ((cancelBooking s caller UserType.student bid now).1.booking bid).map
          (fun x => x.penaltyAmount) = some (jsMul b.price (some (1/2))) ∧
       ((cancelBooking s caller UserType.student bid now).1.booking bid).map
          (fun x => x.refundAmount) = some (jsMul (some (1/2)) b.price) ∧
       (jsGtZero (jsRound (jsMul (some (1/2)) b.price)) = true →
        ((cancelBooking s caller UserType.student bid now).1.refunds.head?).map
          (fun r => r.amount) = some (jsRound (jsMul (some (1/2)) b.price)))) := by
  intro s caller bid now b hfind h24 hok
  have hbid : b.id = bid := by
    have h := List.find?_some hfind
    exact of_decide_eq_true h
  have hpol : calculateCancellationPolicy UserType.student (b.date - now) b.price =
      { refundPercentage := 1/2
        penaltyAmount := jsMul b.price (some (1/2))
        reason := "Cancelamento com multa de 50% (mais de 24h antes da aula)" } := by
    unfold calculateCancellationPolicy
    rw [if_pos rfl, if_neg (not_lt.mpr h24)]
  rcases cancelBooking_cases s caller UserType.student bid now with
    ⟨e, he⟩ | ⟨b', slot, hf, hslot, hres⟩
  · rw [he] at hok
    cases hok
  · have hb : b = b' := (Option.some.injEq _ _).mp (hfind.symm.trans hf)
    subst hb
    rw [hres]
    have hbook : (cancelSuccessState s b bid UserType.student now slot).booking bid
        = some (cancelUpd bid UserType.student
            (calculateCancellationPolicy UserType.student (b.date - now) b.price) b) := by
      show ((cancelSuccessState s b bid UserType.student now slot).bookings.find?
        (fun y => y.id = bid)) = _
      rw [cancelSuccessState_bookings]
      rw [find?_map_comm (cancelUpd bid UserType.student _) (fun y => y.id = bid)
        (by intro a; simp [cancelUpd]; split <;> simp) s.bookings]
      rw [show s.bookings.find? (fun y => y.id = bid) = some b from hfind]
      rfl
    refine ⟨cancelSuccessState_wallets_student s b bid now slot, ?_, ?_, ?_⟩
    · rw [hbook]
      show some (cancelUpd bid UserType.student _ b).penaltyAmount = _
      unfold cancelUpd
      rw [if_pos hbid, hpol]
    · rw [hbook]
      show some (cancelUpd bid UserType.student _ b).refundAmount = _
      unfold cancelUpd
      rw [if_pos hbid, hpol]
    · intro hpos
      have hpos' : jsGtZero (jsRound (jsMul
          (some (calculateCancellationPolicy UserType.student
            (b.date - now) b.price).refundPercentage) b.price)) = true := by
        rw [hpol]
        exact hpos
      rw [cancelSuccessState_refunds s b bid UserType.student now slot hpos']
      rw [hpol]
      rfl

/-- The reachable state of the C6 counterexample: a booking of price 140
for instructor 9 by student 7, scheduled 40h out. -/
def c6State : DB := (createBooking DB.init ⟨7, 9, 40, 2, 70⟩ 0).1

/-- C6 counterexample: the student cancels with hoursUntilStart = 30 ≥ 24
and price 140; the cancel succeeds with refund 70 recorded, but the
provider wallet is NOT credited 70 — it is untouched (available stays 0). -/
theorem c6_requester_late_cancel_counterexample :
    Reachable c6State ∧
    (cancelBooking c6State 7 UserType.student 0 10).2 = OpResult.ok 0 ∧
    ((cancelBooking c6State 7 UserType.student 0 10).1.wallet 9).available = 0 ∧
    ((0 : ℚ) ≠ 70) ∧
    ((cancelBooking c6State 7 UserType.student 0 10).1.wallets = c6State.wallets) ∧
    (((cancelBooking c6State 7 UserType.student 0 10).1.refunds.head?).map
      (fun r => r.amount) = some (some 70)) := by
  refine ⟨?_, ?_, ?_, ?_, ?_, ?_⟩
  · exact Reachable.step Reachable.init (Step.create DB.init ⟨7, 9, 40, 2, 70⟩ 0)
  all_goals with_unfolding_all decide

/-- C6 witness: the amended statement applied at the concrete price-140
booking cancelled 30 hours before start. -/
theorem c6_requester_late_cancel_witness :
    ((cancelBooking c6State 7 UserType.student 0 10).1.wallets = c6State.wallets ∧
     ((cancelBooking c6State 7 UserType.student 0 10).1.booking 0).map
        (fun x => x.penaltyAmount)
       = some (jsMul (newBookingOf DB.init ⟨7, 9, 40, 2, 70⟩ 0).price (some (1/2))) ∧
     ((cancelBooking c6State 7 UserType.student 0 10).1.booking 0).map
        (fun x => x.refundAmount)
       = some (jsMul (some (1/2)) (newBookingOf DB.init ⟨7, 9, 40, 2, 70⟩ 0).price) ∧
     (jsGtZero (jsRound (jsMul (some (1/2))
        (newBookingOf DB.init ⟨7, 9, 40, 2, 70⟩ 0).price)) = true →
      ((cancelBooking c6State 7 UserType.student 0 10).1.refunds.head?).map
        (fun r => r.amount)
       = some (jsRound (jsMul (some (1/2))
          (newBookingOf DB.init ⟨7, 9, 40, 2, 70⟩ 0).price)))) :=
  c6_requester_late_cancel_amended c6State 7 0 10 (newBookingOf DB.init ⟨7, 9, 40, 2, 70⟩ 0)
    (by with_unfolding_all decide) (by with_unfolding_all decide)
    (by with_unfolding_all decide)

/-- Case analysis of `markLessonCompleted`: any rejection, or the found
booking determining the updated state and the enqueued release record. -/
theorem markLessonCompleted_cases (s : DB) (caller bid : ℕ) (d now : ℚ) :
    (∃ e, (markLessonCompleted s caller bid d now).2 = OpResult.err e) ∨
    (∃ b, s.booking bid = some b ∧
      markLessonCompleted s caller bid d now =
        ({ s with
            bookings := s.bookings.map (completeUpd bid d)
            releases :=
              { bookingId := bid
                instructorId := b.instructorId
                totalAmount := b.price
                platformFee := jsRound (jsMul b.price (some (15/100)))
                instructorAmount := jsSub b.price (jsRound (jsMul b.price (some (15/100))))
                scheduledFor := now + 24
                processed := false } :: s.releases },
         OpResult.ok bid)) := by
  unfold markLessonCompleted
  split
  · exact Or.inl ⟨_, rfl⟩
  split
  · exact Or.inl ⟨_, rfl⟩
  rename_i b hfind
  split
  · exact Or.inl ⟨_, rfl⟩
  split
  · exact Or.inl ⟨_, rfl⟩
  split
  · exact Or.inl ⟨_, rfl⟩
  exact Or.inr ⟨b, hfind, rfl⟩

/-- C4 (amended): the settlement split is `platformFee =
Math.round(totalAmount * 0.15)` — always 15%, with no package tier — and
`instructorAmount = totalAmount - platformFee`, so the two sum back to the
total exactly; at totalAmount 140 the split is 21 and 119; and a completed
booking enqueues exactly this split over the booking price. -/
theorem c4_fee_split_amended :
    (∀ t : ℚ, platformFeeOf t + instructorAmountOf t = t) ∧
    platformFeeOf 140 = 21 ∧ instructorAmountOf 140 = 119 ∧
    (∀ p : JsNum, jsAdd (jsRound (jsMul p (some (15/100))))
        (jsSub p (jsRound (jsMul p (some (15/100))))) = p) ∧
    (∀ (s : DB) (caller bid : ℕ) (d now : ℚ) (b : Booking),
      s.booking bid = some b →
      (markLessonCompleted s caller bid d now).2 = OpResult.ok bid →
      (markLessonCompleted s caller bid d now).1.releases.head? = some
        { bookingId := bid
          instructorId := b.instructorId
          totalAmount := b.price
          platformFee := jsRound (jsMul b.price (some (15/100)))
          instructorAmount := jsSub b.price (jsRound (jsMul b.price (some (15/100))))
          scheduledFor := now + 24
          processed := false }) := by
  refine ⟨?_, ?_, ?_, ?_, ?_⟩
  · intro t
    unfold instructorAmountOf
    ring
  · with_unfolding_all decide
  · with_unfolding_all decide
  · intro p
    cases p with
    | none => rfl
    | some q =>
      show jsAdd (some _) (some (q - _)) = some q
      unfold jsAdd
      simp only [Option.some.injEq]
      ring
  · intro s caller bid d now b hfind hok
    rcases markLessonCompleted_cases s caller bid d now with ⟨e, he⟩ | ⟨b', hf, hres⟩
    · rw [he] at hok
      cases hok
    · have hb : b = b' := (Option.some.injEq _ _).mp (hfind.symm.trans hf)
      subst hb
      rw [hres]
      rfl

/-- A completed lesson: price 140 booking, confirmed then completed; the
release of 21/119 is scheduled 24h out. -/
def completedState : DB :=
  (markLessonCompleted
    (confirmBooking (createBooking DB.init ⟨1, 2, 10, 2, 70⟩ 0).1 2 0 1).1
    2 0 2 11).1

/-- C4 witness: the amended statement applied at the completed price-140
booking. -/
theorem c4_fee_split_witness :
    (markLessonCompleted
        (confirmBooking (createBooking DB.init ⟨1, 2, 10, 2, 70⟩ 0).1 2 0 1).1
        2 0 2 11).1.releases.head? = some
      { bookingId := 0
        instructorId := (confirmUpd 0 (newBookingOf DB.init ⟨1, 2, 10, 2, 70⟩ 0)).instructorId
        totalAmount := (confirmUpd 0 (newBookingOf DB.init ⟨1, 2, 10, 2, 70⟩ 0)).price
        platformFee := jsRound (jsMul
          (confirmUpd 0 (newBookingOf DB.init ⟨1, 2, 10, 2, 70⟩ 0)).price (some (15/100)))
        instructorAmount := jsSub
          (confirmUpd 0 (newBookingOf DB.init ⟨1, 2, 10, 2, 70⟩ 0)).price
          (jsRound (jsMul
            (confirmUpd 0 (newBookingOf DB.init ⟨1, 2, 10, 2, 70⟩ 0)).price (some (15/100))))
        scheduledFor := 11 + 24
        processed := false } :=
  c4_fee_split_amended.2.2.2.2
    (confirmBooking (createBooking DB.init ⟨1, 2, 10, 2, 70⟩ 0).1 2 0 1).1 2 0 2 11
    (confirmUpd 0 (newBookingOf DB.init ⟨1, 2, 10, 2, 70⟩ 0))
    (by with_unfolding_all decide) (by with_unfolding_all decide)

/-- Atomic wallet increment read back: the updated entry is the function
applied to the previous value (zero for an absent entry). -/
theorem walletUpdate_lookup (ws : List (ℕ × Wallet)) (iid : ℕ) (f : Wallet → Wallet) :
    (((walletUpdate ws iid f).find? (fun e => e.1 = iid)).map (fun e => e.2)).getD
        Wallet.zero
      = f ((((ws.find? (fun e => e.1 = iid)).map (fun e => e.2))).getD Wallet.zero) := by
  unfold walletUpdate
  split
  · rename_i hany
    rw [find?_map_comm (fun e => if e.1 = iid then (e.1, f e.2) else e)
      (fun e => e.1 = iid) (by intro a; by_cases h : a.1 = iid <;> simp [h]) ws]
    cases hf : ws.find? (fun e => e.1 = iid) with
    | none =>
      exfalso
      rcases List.any_eq_true.mp hany with ⟨e, he, hek⟩
      exact List.find?_eq_none.mp hf e he hek
    | some e =>
      have he : e.1 = iid := by
        have h := List.find?_some hf
        exact of_decide_eq_true h
      show ((Option.map (fun x => if x.1 = iid then (x.1, f x.2) else x)
        (some e)).map (fun x => x.2)).getD Wallet.zero = _
      show ((some (if e.1 = iid then (e.1, f e.2) else e)).map
        (fun x => x.2)).getD Wallet.zero = _
      rw [if_pos he]
      rfl
  · rename_i hany
    have hnone : ws.find? (fun e => e.1 = iid) = none := by
      refine List.find?_eq_none.mpr ?_
      intro x hx hpx
      exact hany (List.any_eq_true.mpr ⟨x, hx, hpx⟩)
    rw [hnone]
    show ((((iid, f Wallet.zero) :: ws).find? (fun e => e.1 = iid)).map
      (fun e => e.2)).getD Wallet.zero = _
    rw [List.find?_cons_of_pos _ (by simp)]
    rfl

/-- A wallet credit leaves the release queue unchanged. -/
theorem wCreditWallet_releases (iid : ℕ) (a : JsNum) (s : DB) :
    (wCreditWallet iid a s).releases = s.releases := by
  unfold wCreditWallet
  cases a <;> rfl

/-- A wallet credit read back on the credited instructor. -/
theorem wCreditWallet_wallet (s : DB) (iid : ℕ) (a : ℚ) :
    (wCreditWallet iid (some a) s).wallet iid
      = { s.wallet iid with
          available := (s.wallet iid).available + a
          total := (s.wallet iid).total + a } := by
  have h := walletUpdate_lookup s.wallets iid (fun w =>
    { w with available := w.available + a, total := w.total + a })
  show (((walletUpdate s.wallets iid (fun w =>
      { w with available := w.available + a, total := w.total + a })).find?
        (fun e => e.1 = iid)).map (fun e => e.2)).getD Wallet.zero = _
  rw [h]
  rfl

/-- C3 (a): running `processPaymentReleases` to completion and then again
over a queue holding one due record credits the instructor exactly once:
the completed first run marks the record processed, which excludes it from
the second run's query. -/
theorem processPaymentReleases_twice (s : DB) (r : ReleaseRec) (now : ℚ) (amt : ℚ)
    (hrel : s.releases = [r]) (hproc : r.processed = false)
    (hsch : r.scheduledFor ≤ now) (hamt : r.instructorAmount = some amt) :
    ((processPaymentReleases (processPaymentReleases s now) now).wallet
        r.instructorId).available
      = (s.wallet r.instructorId).available + amt := by
  have hfilter : s.releases.filter
      (fun x => x.scheduledFor ≤ now ∧ x.processed = false) = [r] := by
    rw [hrel]
    simp [List.filter, hproc, hsch]
  have h1 : processPaymentReleases s now
      = wMarkReleaseProcessed r.bookingId
          (wCreditWallet r.instructorId r.instructorAmount s) := by
    unfold processPaymentReleases
    rw [hfilter]
    rfl
  have hrel1 : (processPaymentReleases s now).releases
      = [{ r with processed := true }] := by
    rw [h1]
    show ((wCreditWallet r.instructorId r.instructorAmount s).releases).map
      (markReleaseUpd r.bookingId) = _
    rw [wCreditWallet_releases, hrel]
    show [markReleaseUpd r.bookingId r] = _
    unfold markReleaseUpd
    rw [if_pos rfl]
  have hfilter2 : (processPaymentReleases s now).releases.filter
      (fun x => x.scheduledFor ≤ now ∧ x.processed = false) = [] := by
    rw [hrel1]
    simp [List.filter]
  have h2 : processPaymentReleases (processPaymentReleases s now) now
      = processPaymentReleases s now := by
    have hdef : processPaymentReleases (processPaymentReleases s now) now
        = ((processPaymentReleases s now).releases.filter
            (fun x => x.scheduledFor ≤ now ∧ x.processed = false)).foldl
          (fun st x => applyWrites (releaseWrites x) st)
          (processPaymentReleases s now) := rfl
    rw [hdef, hfilter2]
    rfl
  rw [h2, h1, hamt]
  show ((wCreditWallet r.instructorId (some amt) s).wallet r.instructorId).available = _
  rw [wCreditWallet_wallet]

/-- Appending a refund for a booking raises its refund count by one. -/
theorem countRefunds_wAddRefund (s : DB) (bid : ℕ) (amt : JsNum) (reason : String) :
    countRefunds (wAddRefund bid amt reason s) bid = countRefunds s bid + 1 := by
  unfold countRefunds wAddRefund
  simp [List.filter_cons]

/-- The booking read back after the timeout status write. -/
theorem booking_after_wCancel (s : DB) (bid : ℕ) (b : Booking)
    (hfind : s.booking bid = some b) :
    (wCancelBooking bid s).booking bid = some (statusCancelUpd bid b) := by
  show ((s.bookings.map (statusCancelUpd bid)).find? (fun y => y.id = bid)) = _
  rw [find?_map_comm (statusCancelUpd bid) (fun y => y.id = bid)
    (by intro a; unfold statusCancelUpd; split <;> simp) s.bookings]
  rw [show s.bookings.find? (fun y => y.id = bid) = some b from hfind]
  rfl

/-- `timeoutWrites` when no due unprocessed record exists. -/
theorem timeoutWrites_none (s : DB) (bid : ℕ) (now : ℚ)
    (h1 : s.timeouts.find?
      (fun t => t.bookingId = bid ∧ ¬ t.processed ∧ t.scheduledFor ≤ now) = none) :
    timeoutWrites s bid now = [] := by
  unfold timeoutWrites
  rw [h1]

/-- `timeoutWrites` when the booking document is missing. -/
theorem timeoutWrites_missing (s : DB) (bid : ℕ) (now : ℚ) (t : TimeoutRec)
    (h1 : s.timeouts.find?
      (fun t => t.bookingId = bid ∧ ¬ t.processed ∧ t.scheduledFor ≤ now) = some t)
    (h2 : s.booking bid = none) :
    timeoutWrites s bid now = [wMarkTimeoutProcessed bid] := by
  unfold timeoutWrites
  rw [h1, h2]

/-- `timeoutWrites` when the booking is no longer `pendente`. -/
theorem timeoutWrites_stale (s : DB) (bid : ℕ) (now : ℚ) (t : TimeoutRec) (b : Booking)
    (h1 : s.timeouts.find?
      (fun t => t.bookingId = bid ∧ ¬ t.processed ∧ t.scheduledFor ≤ now) = some t)
    (h2 : s.booking bid = some b) (hst : ¬ b.status = BookingStatus.pendente) :
    timeoutWrites s bid now = [wMarkTimeoutProcessed bid] := by
  unfold timeoutWrites
  rw [h1, h2]
  dsimp only
  rw [if_neg hst]

/-- `timeoutWrites` for a still-`pendente` booking: the full auto-cancel. -/
theorem timeoutWrites_pendente (s : DB) (bid : ℕ) (now : ℚ) (t : TimeoutRec) (b : Booking)
    (h1 : s.timeouts.find?
      (fun t => t.bookingId = bid ∧ ¬ t.processed ∧ t.scheduledFor ≤ now) = some t)
    (h2 : s.booking bid = some b) (hst : b.status = BookingStatus.pendente) :
    timeoutWrites s bid now =
      [wCancelBooking bid,
       wDeleteSlot (b.instructorId, formatDateKey b.date),
       wAddRefund bid (some b.depositAmount) "timeout",
       wMarkTimeoutProcessed bid] := by
  unfold timeoutWrites
  rw [h1, h2]
  dsimp only
  rw [if_pos hst]

/-- One completed `processBookingTimeouts` iteration adds at most one
refund record for the booking. -/
theorem processBookingTimeout_le (x : DB) (bid : ℕ) (now : ℚ) :
    countRefunds (processBookingTimeout x bid now) bid ≤ countRefunds x bid + 1 := by
  unfold processBookingTimeout
  cases h1 : x.timeouts.find?
      (fun t => t.bookingId = bid ∧ ¬ t.processed ∧ t.scheduledFor ≤ now) with
  | none =>
    rw [timeoutWrites_none x bid now h1]
    exact Nat.le_succ _
  | some t =>
    cases h2 : x.booking bid with
    | none =>
      rw [timeoutWrites_missing x bid now t h1 h2]
      exact Nat.le_succ _
    | some b =>
      by_cases hst : b.status = BookingStatus.pendente
      · rw [timeoutWrites_pendente x bid now t b h1 h2 hst]
        show countRefunds (wMarkTimeoutProcessed bid (wAddRefund bid (some b.depositAmount)
          "timeout" (wDeleteSlot (b.instructorId, formatDateKey b.date)
            (wCancelBooking bid x)))) bid ≤ countRefunds x bid + 1
        rw [show countRefunds (wMarkTimeoutProcessed bid (wAddRefund bid
            (some b.depositAmount) "timeout" (wDeleteSlot
              (b.instructorId, formatDateKey b.date) (wCancelBooking bid x)))) bid
          = countRefunds (wAddRefund bid (some b.depositAmount) "timeout"
              (wDeleteSlot (b.instructorId, formatDateKey b.date)
                (wCancelBooking bid x))) bid from rfl]
        rw [countRefunds_wAddRefund]
        exact Nat.le_refl _
      · rw [timeoutWrites_stale x bid now t b h1 h2 hst]
        exact Nat.le_succ _

/-- A `processBookingTimeouts` iteration that observes any status other
than `pendente` adds no refund. -/
theorem processBookingTimeout_no_refund (x : DB) (bid : ℕ) (now : ℚ)
    (h : ∀ b, x.booking bid = some b → ¬ b.status = BookingStatus.pendente) :
    countRefunds (processBookingTimeout x bid now) bid = countRefunds x bid := by
  unfold processBookingTimeout
  cases h1 : x.timeouts.find?
      (fun t => t.bookingId = bid ∧ ¬ t.processed ∧ t.scheduledFor ≤ now) with
  | none =>
    rw [timeoutWrites_none x bid now h1]
    rfl
  | some t =>
    cases h2 : x.booking bid with
    | none =>
      rw [timeoutWrites_missing x bid now t h1 h2]
      rfl
    | some b =>
      rw [timeoutWrites_stale x bid now t b h1 h2 (h b h2)]
      rfl

/-- C3 (b) helper: a `processBookingTimeouts` iteration that crashed after
any prefix of its writes and is then redelivered and run to completion
leaves at most one timeout refund for the booking: the status write comes
before the refund write, so a redelivery that re-reads the booking after a
persisted refund sees `cancelada` and only marks the record processed. -/
theorem processBookingTimeout_crash_safe (s : DB) (bid : ℕ) (now : ℚ) (n : ℕ)
    (h0 : countRefunds s bid = 0) :
    countRefunds (processBookingTimeout (processBookingTimeoutCrash s bid now n) bid now)
      bid ≤ 1 := by
  unfold processBookingTimeoutCrash
  cases h1 : s.timeouts.find?
      (fun t => t.bookingId = bid ∧ ¬ t.processed ∧ t.scheduledFor ≤ now) with
  | none =>
    rw [timeoutWrites_none s bid now h1]
    have hle := processBookingTimeout_le s bid now
    rw [h0] at hle
    rw [List.take_nil]
    exact hle
  | some t =>
    cases h2 : s.booking bid with
    | none =>
      rw [timeoutWrites_missing s bid now t h1 h2]
      cases n with
      | zero =>
        have hle := processBookingTimeout_le s bid now
        rw [h0] at hle
        exact hle
      | succ m =>
        simp only [List.take_succ_cons, List.take_nil]
        have hle := processBookingTimeout_le (wMarkTimeoutProcessed bid s) bid now
        have hc : countRefunds (wMarkTimeoutProcessed bid s) bid = 0 := h0
        rw [hc] at hle
        exact hle
    | some b =>
      have h2' : s.bookings.find? (fun y => y.id = bid) = some b := h2
      have hfb := List.find?_some h2'
      have hbid : b.id = bid := of_decide_eq_true hfb
      by_cases hst : b.status = BookingStatus.pendente
      · rw [timeoutWrites_pendente s bid now t b h1 h2 hst]
        rcases n with _ | _ | _ | _ | m
        · have hle := processBookingTimeout_le s bid now
          rw [h0] at hle
          exact hle
        · have hle := processBookingTimeout_le (wCancelBooking bid s) bid now
          have hc : countRefunds (wCancelBooking bid s) bid = 0 := h0
          rw [hc] at hle
          exact hle
        · have hle := processBookingTimeout_le
            (wDeleteSlot (b.instructorId, formatDateKey b.date)
              (wCancelBooking bid s)) bid now
          have hc : countRefunds (wDeleteSlot (b.instructorId, formatDateKey b.date)
              (wCancelBooking bid s)) bid = 0 := h0
          rw [hc] at hle
          exact hle
        · have hbook : (wAddRefund bid (some b.depositAmount) "timeout"
              (wDeleteSlot (b.instructorId, formatDateKey b.date)
                (wCancelBooking bid s))).booking bid
              = some (statusCancelUpd bid b) := booking_after_wCancel s bid b h2
          have hnp : ∀ b', (wAddRefund bid (some b.depositAmount) "timeout"
              (wDeleteSlot (b.instructorId, formatDateKey b.date)
                (wCancelBooking bid s))).booking bid = some b'
              → ¬ b'.status = BookingStatus.pendente := by
            intro b' hb'
            rw [hbook] at hb'
            cases hb'
            simp [statusCancelUpd, hbid]
          have key := processBookingTimeout_no_refund
            (wAddRefund bid (some b.depositAmount) "timeout"
              (wDeleteSlot (b.instructorId, formatDateKey b.date)
                (wCancelBooking bid s))) bid now hnp
          show countRefunds (processBookingTimeout
            (wAddRefund bid (some b.depositAmount) "timeout"
              (wDeleteSlot (b.instructorId, formatDateKey b.date)
                (wCancelBooking bid s))) bid now) bid ≤ 1
          rw [key, countRefunds_wAddRefund]
          have hc : countRefunds (wDeleteSlot (b.instructorId, formatDateKey b.date)
              (wCancelBooking bid s)) bid = 0 := h0
          rw [hc]
        · simp only [List.take_succ_cons, List.take_nil]
          have hbook : (wMarkTimeoutProcessed bid
              (wAddRefund bid (some b.depositAmount) "timeout"
                (wDeleteSlot (b.instructorId, formatDateKey b.date)
                  (wCancelBooking bid s)))).booking bid
              = some (statusCancelUpd bid b) := booking_after_wCancel s bid b h2
          have hnp : ∀ b', (wMarkTimeoutProcessed bid
              (wAddRefund bid (some b.depositAmount) "timeout"
                (wDeleteSlot (b.instructorId, formatDateKey b.date)
                  (wCancelBooking bid s)))).booking bid = some b'
              → ¬ b'.status = BookingStatus.pendente := by
            intro b' hb'
            rw [hbook] at hb'
            cases hb'
            simp [statusCancelUpd, hbid]
          have key := processBookingTimeout_no_refund
            (wMarkTimeoutProcessed bid
              (wAddRefund bid (some b.depositAmount) "timeout"
                (wDeleteSlot (b.instructorId, formatDateKey b.date)
                  (wCancelBooking bid s)))) bid now hnp
          show countRefunds (processBookingTimeout
            (wMarkTimeoutProcessed bid
              (wAddRefund bid (some b.depositAmount) "timeout"
                (wDeleteSlot (b.instructorId, formatDateKey b.date)
                  (wCancelBooking bid s)))) bid now) bid ≤ 1
          rw [key]
          rw [show countRefunds (wMarkTimeoutProcessed bid
              (wAddRefund bid (some b.depositAmount) "timeout"
                (wDeleteSlot (b.instructorId, formatDateKey b.date)
                  (wCancelBooking bid s)))) bid
            = countRefunds (wAddRefund bid (some b.depositAmount) "timeout"
                (wDeleteSlot (b.instructorId, formatDateKey b.date)
                  (wCancelBooking bid s))) bid from rfl]
          rw [countRefunds_wAddRefund]
          have hc : countRefunds (wDeleteSlot (b.instructorId, formatDateKey b.date)
              (wCancelBooking bid s)) bid = 0 := h0
          rw [hc]
      · rw [timeoutWrites_stale s bid now t b h1 h2 hst]
        cases n with
        | zero =>
          have hle := processBookingTimeout_le s bid now
          rw [h0] at hle
          exact hle
        | succ m =>
          simp only [List.take_succ_cons, List.take_nil]
          have hle := processBookingTimeout_le (wMarkTimeoutProcessed bid s) bid now
          have hc : countRefunds (wMarkTimeoutProcessed bid s) bid = 0 := h0
          rw [hc] at hle
          exact hle

/-- The release record scheduled by the completed price-140 lesson. -/
def c3Rel : ReleaseRec :=
  { bookingId := 0, instructorId := 2, totalAmount := some 140,
    platformFee := some 21, instructorAmount := some 119,
    scheduledFor := 35, processed := false }

/-- C3 counterexample: the payment-release handler credits the wallet
before marking the queue record processed, with no transaction around the
two writes.  From the reachable completed price-140 lesson, a run that
crashes after the credit (write 1 of 2) followed by a redelivered full run
credits the instructor twice (238 = 2 x 119), while a completed run
re-run credits once (119). -/
theorem c3_release_crash_counterexample :
    Reachable completedState
    ∧ ((processPaymentReleases completedState 35).wallet 2).available = 119
    ∧ ((processPaymentReleases (processPaymentReleasesCrash completedState 35 1) 35).wallet
        2).available = 238 := by
  refine ⟨?_, ?_, ?_⟩
  · exact Reachable.step (Reachable.step (Reachable.step Reachable.init
      (Step.create DB.init ⟨1, 2, 10, 2, 70⟩ 0))
      (Step.confirm (createBooking DB.init ⟨1, 2, 10, 2, 70⟩ 0).1 2 0 1))
      (Step.complete (confirmBooking (createBooking DB.init ⟨1, 2, 10, 2, 70⟩ 0).1 2 0 1).1
        2 0 2 11)
  · with_unfolding_all decide
  · with_unfolding_all decide

/-- C3: amended.  (a) Running `processPaymentReleases` to completion and
then running it again credits the provider wallet exactly once, because the
completed first run marks the record processed.  (b) A redelivered
`processBookingTimeouts` iteration, whatever write prefix the crashed run
persisted, leaves at most one timeout refund for the booking, because the
`cancelada` status write precedes the refund write.  The claim's further
assertion that a crashed-and-redelivered *release* handler also credits
only once is false (see the counterexample): the credit precedes the
`processed` mark with no transaction. -/
theorem c3_deadline_idempotence_amended (s s2 : DB) (r : ReleaseRec)
    (now now2 amt : ℚ) (bid n : ℕ)
    (hrel : s.releases = [r]) (hproc : r.processed = false)
    (hsch : r.scheduledFor ≤ now) (hamt : r.instructorAmount = some amt)
    (h0 : countRefunds s2 bid = 0) :
    ((processPaymentReleases (processPaymentReleases s now) now).wallet
        r.instructorId).available
      = (s.wallet r.instructorId).available + amt
    ∧ countRefunds (processBookingTimeout (processBookingTimeoutCrash s2 bid now2 n)
        bid now2) bid ≤ 1 :=
  ⟨processPaymentReleases_twice s r now amt hrel hproc hsch hamt,
   processBookingTimeout_crash_safe s2 bid now2 n h0⟩

/-- C3 witness: the amended statement at the completed price-140 lesson
(release part) and at the empty store with one redelivery after a one-write
crash (timeout part). -/
theorem c3_deadline_idempotence_witness :
    completedState.releases = [c3Rel]
    ∧ countRefunds DB.init 0 = 0
    ∧ ((processPaymentReleases (processPaymentReleases completedState 35) 35).wallet
        2).available = (completedState.wallet 2).available + 119
    ∧ countRefunds (processBookingTimeout (processBookingTimeoutCrash DB.init 0 0 1)
        0 0) 0 ≤ 1 := by
  refine ⟨by with_unfolding_all decide, rfl, ?_, ?_⟩
  · exact (c3_deadline_idempotence_amended completedState DB.init c3Rel 35 0 119 0 1
      (by with_unfolding_all decide) rfl (by with_unfolding_all decide) rfl rfl).1
  · exact (c3_deadline_idempotence_amended completedState DB.init c3Rel 35 0 119 0 1
      (by with_unfolding_all decide) rfl (by with_unfolding_all decide) rfl rfl).2
